import Mathlib

/-!
# Order Monetary Integrity & Sequencing Engine — verification development

A shallow embedding, over exact rationals, of the order-creation pipeline of the
`nicole-pastry-arts-ecommerce-server` repository:

* `src/utils/currency.ts` — the currency normalizer (`isLikelyInCents`,
  `centsToDollars`, `smartCurrencyConvert`, `convertOrderMonetaryValues`);
* `src/utils/google-maps.ts` — `validateCoordinates`, `autoGenerateGoogleMapsLink`;
* `src/controllers/order.controller.ts` — `createOrder` (validation sequence,
  pricing recomputation, payment-status defaulting, order-document assembly);
* the Mongoose order model — order schema field validators, the `pre('save')`
  middleware (order-number generation, total / item / subtotal cross-checks)
  and the unique index on `orderNumber`.

Modelling conventions:

* A JavaScript `number` is modelled as `ℚ`; the `NaN`/non-number cases the code
  guards with `typeof`/`isNaN` checks have no counterpart (no rational is NaN),
  and optional payload fields are `Option`s.
* `Number(x.toFixed(2))` is `round2`: rounding half-up at two decimals matches
  the ECMAScript `toFixed` tie rule (of two closest candidates pick the larger).
* JavaScript truthiness is explicit: `truthyStr` for strings (`""` is falsy),
  `jsFalsyNum` for numbers (`0` and absent are falsy).
* Strings are Lean `String`s; the store's lexicographic sort on `orderNumber`
  (BSON binary order, which agrees with code-point order on ASCII data) is
  `charListLt` on the underlying character lists, and the JavaScript
  `split('-')`/`padStart`/`parseInt` idioms are given structural definitions.
* External collaborators (Mongoose ObjectId syntax, the user store, Google-Maps
  URL parsing/formatting) are parameters collected in `Env`.
* The file `src/utils/ecuador-validation.ts` is not among the sources; only its
  call sites and the order schema are.  The cedula and phone validators are
  modelled from the schema's own regex validators (`/^\d{10}$/` and
  `/^0[2-9]\d{7,8}$/`), the delivery-zone set from the schema's enum, and the
  zone price table — whose constants appear nowhere in the sources — is an
  `Env` parameter (the spec only fixes that it is a five-zone table of
  non-negative constants).
-/

attribute [local semireducible] Rat.add Rat.mul Rat.inv Rat.sub Rat.ofScientific

namespace NicoleOrders

/-! ## Rounding -/

/-- Model of `Number(x.toFixed(2))`: round to 2 decimal places, half-up
(the ECMAScript `toFixed` tie rule picks the larger candidate). -/
def round2 (q : ℚ) : ℚ := (⌊q * 100 + 1 / 2⌋ : ℚ) / 100

/-! ## Currency normalizer — `src/utils/currency.ts` -/

/-- Model of `centsToDollars`: `Number((cents / 100).toFixed(2))`. -/
def centsToDollars (cents : ℚ) : ℚ := round2 (cents / 100)

/-- Model of `Number.isInteger` on the rational embedding. -/
def jsIsInteger (q : ℚ) : Bool := q.den == 1

/-- Model of `isLikelyInCents(value, referenceValue?)`.  The reference check
runs only when the reference is provided and truthy: a reference of `0` is
falsy in JavaScript and skips the 50× comparison. -/
def isLikelyInCents (value : ℚ) (referenceValue : Option ℚ) : Bool :=
  let refCheck : Bool :=
    match referenceValue with
    | some r => !(r == 0) && decide (value > r * 50)
    | none => false
  if refCheck then true
  else if decide (value ≥ 1000) && jsIsInteger value then true
  else if jsIsInteger value && decide (value > 100) then true
  else false

/-- Model of `smartCurrencyConvert(value, referenceValue?)`. -/
def smartCurrencyConvert (value : ℚ) (referenceValue : Option ℚ) : ℚ :=
  if isLikelyInCents value referenceValue then centsToDollars value else value

/-! ## JavaScript string / truthiness idioms -/

/-- Truthiness of an optional string: absent and `""` are falsy. -/
def truthyStr : Option String → Bool
  | some s => !(s == "")
  | none => false

/-- Falsiness of an optional number: absent and `0` are falsy. -/
def jsFalsyNum : Option ℚ → Bool
  | some x => x == 0
  | none => true

/-- JavaScript `o || d` for an optional string default. -/
def jsOrStr (o : Option String) (d : String) : String :=
  match o with
  | some s => if s == "" then d else s
  | none => d

/-- Lexicographic comparison of character lists: the order the document store
uses to sort `orderNumber` strings (binary UTF-8 order; on the ASCII data at
hand it agrees with JavaScript string comparison). -/
def charListLt : List Char → List Char → Bool
  | _, [] => false
  | [], _ :: _ => true
  | a :: as, b :: bs => if a < b then true else if b < a then false else charListLt as bs

/-- Structural model of JavaScript `s.split('-')` (on the character list). -/
def splitOnDash : List Char → List (List Char)
  | [] => [[]]
  | c :: cs =>
    match splitOnDash cs with
    | [] => [[]]
    | g :: gs => if c = '-' then [] :: g :: gs else (c :: g) :: gs

/-- Model of `s.split('-').pop()`: the segment after the last dash
(the whole string when there is no dash). -/
def afterLastDash (s : List Char) : List Char := (splitOnDash s).getLastD []

/-- Numeric value of a digit string. -/
def digitsToNat (ds : List Char) : Nat :=
  ds.foldl (fun n c => n * 10 + (c.toNat - '0'.toNat)) 0

/-- Model of JavaScript `parseInt` on the strings at hand: the leading digit
run, `none` (NaN) when there is none.  (Sign/whitespace handling is not needed:
the parsed segments come from generated order numbers.) -/
def jsParseIntNat (s : List Char) : Option Nat :=
  let ds := s.takeWhile Char.isDigit
  if ds.isEmpty then none else some (digitsToNat ds)

/-- Model of JavaScript `s.padStart(w, '0')` (never truncates). -/
def padStart (w : Nat) (s : String) : String :=
  if s.length ≥ w then s else String.mk (List.replicate (w - s.length) '0' ++ s.data)

/-- Structural model of JavaScript `s.trim()`: strip leading and trailing
whitespace. -/
def jsTrim (s : String) : String :=
  String.mk (((s.data.dropWhile Char.isWhitespace).reverse.dropWhile Char.isWhitespace).reverse)

/-! ## Delivery zones and Ecuador validators

`src/utils/ecuador-validation.ts` is absent from the sources.  The zone
identifiers are the order schema's `deliveryZone` enum; `validateEcuadorCedula`
and `validateEcuadorPhone` are modelled from the schema's own regex validators
for the same data (`/^\d{10}$/`, `/^0[2-9]\d{7,8}$/`), which the spec describes
as "fixed-format 10-digit string" and "regional mobile/landline format". -/

/-- The closed delivery-zone set, from the order schema's enum. -/
inductive DeliveryZone where
  | samanes_suburbio
  | norte_sur_esteros
  | sambo
  | via_costa
  | aurora
deriving DecidableEq, Repr

/-- Parse a payload string into a zone identifier. -/
def zoneOfString (s : String) : Option DeliveryZone :=
  if s == "samanes_suburbio" then some .samanes_suburbio
  else if s == "norte_sur_esteros" then some .norte_sur_esteros
  else if s == "sambo" then some .sambo
  else if s == "via_costa" then some .via_costa
  else if s == "aurora" then some .aurora
  else none

/-- Modelled from the spec: membership in the closed zone set
(`isValidDeliveryZone` of the missing `ecuador-validation.ts`; the zone names
come from the order schema's enum, which is among the sources). -/
def isValidDeliveryZone (s : String) : Bool := (zoneOfString s).isSome

/-- Modelled from the spec: the 10-digit national-id check
(`validateEcuadorCedula` of the missing `ecuador-validation.ts`), mirroring the
schema's own `/^\d{10}$/` validator for the same field. -/
def validateEcuadorCedula (s : String) : Bool :=
  s.length == 10 && s.data.all Char.isDigit

/-- Modelled from the spec: the regional phone check (`validateEcuadorPhone` of
the missing `ecuador-validation.ts`), mirroring the schema's own
`/^0[2-9]\d{7,8}$/` validator for the same fields. -/
def validateEcuadorPhone (s : String) : Bool :=
  match s.data with
  | '0' :: d :: rest =>
    decide ('2' ≤ d) && decide (d ≤ '9') && rest.all Char.isDigit &&
      (rest.length == 7 || rest.length == 8)
  | _ => false

/-! ## Data model -/

/-- An order line item (monetary fields; `productImage` is an optional field no
logic reads and is omitted). -/
structure OrderItem where
  productId : String
  productName : String
  productSku : String
  quantity : ℚ
  unitPrice : ℚ
  totalPrice : ℚ
deriving DecidableEq

/-- Billing information (the optional `email`/`address` sub-fields carry no
logic the claims touch and are omitted). -/
structure BillingInfo where
  cedula : String
  fullName : String
  phone : String
deriving DecidableEq

/-- Delivery address (`locationNotes` is omitted; no logic reads it). -/
structure DeliveryAddress where
  street : String
  city : String
  state : String
  zipCode : String
  country : String
  recipientName : String
  recipientPhone : String
  latitude : Option ℚ
  longitude : Option ℚ
  googleMapsLink : Option String
deriving DecidableEq

/-- The raw `req.body` of `POST /api/orders`, restricted to the fields
`createOrder` reads (`estimatedDeliveryDate`, `notes`, `internalNotes`,
`discountCode`, `mercatelyOrderId` flow through untouched and are omitted).
`createdBy` is the authenticated actor id. -/
structure OrderInput where
  customer : Option String
  items : Option (List OrderItem)
  subtotal : Option ℚ
  tax : Option ℚ
  taxRate : Option ℚ
  discount : Option ℚ
  discountType : Option String
  total : Option ℚ
  paymentMethod : Option String
  paymentReference : Option String
  paymentStatus : Option String
  billingInfo : Option BillingInfo
  deliveryAddress : Option DeliveryAddress
  deliveryZone : Option String
  shippingMethod : Option String
  shippingCost : Option ℚ
  createdBy : String
deriving DecidableEq

/-- The assembled order document (`new models.order({...})`, controller lines
177–200), restricted to the fields carrying logic.  `status` always takes the
schema default `'pending'` and is omitted. -/
structure OrderDoc where
  orderNumber : String
  customer : String
  items : List OrderItem
  subtotal : ℚ
  tax : ℚ
  taxRate : ℚ
  discount : ℚ
  discountType : String
  total : ℚ
  paymentMethod : String
  paymentReference : Option String
  paymentStatus : String
  billingInfo : BillingInfo
  deliveryAddress : DeliveryAddress
  deliveryZone : DeliveryZone
  shippingMethod : String
  shippingCost : ℚ
  createdBy : String
deriving DecidableEq

/-- The wall-clock year/month pair (`getFullYear()`, `getMonth() + 1`). -/
structure OrderDate where
  year : Nat
  month : Nat
deriving DecidableEq

/-- External collaborators of the pipeline.  `zonePrice` is modelled from the
spec: it stands for `getDeliveryZonePrice` of the missing
`ecuador-validation.ts`; the spec fixes only that it is a table of non-negative
constants, so it is kept as a parameter.  The remaining fields model the
Mongoose ObjectId syntax check, the user-store lookup and the Google-Maps URL
helpers of `src/utils/google-maps.ts` whose string/regex internals no claim
depends on. -/
structure Env where
  isValidObjectId : String → Bool
  userExists : String → Bool
  zonePrice : DeliveryZone → ℚ
  extractCoords : String → Option (ℚ × ℚ)
  formatMapsLink : ℚ → ℚ → String → String
  mapsLinkValid : String → Bool

/-- The pipeline's failure modes: HTTP 400 responses of the controller, the 404
customer lookup, Mongoose schema validation, errors thrown by the `pre('save')`
middleware, and the unique-index violation on `orderNumber`. -/
inductive OrderError where
  | badRequest (msg : String)
  | notFound (msg : String)
  | validationError (msg : String)
  | saveError (msg : String)
  | duplicateKey (orderNumber : String)
deriving DecidableEq

deriving instance DecidableEq for Except

/-! ## `convertOrderMonetaryValues` — `src/utils/currency.ts` -/

/-- Model of `convertOrderMonetaryValues`: smart-convert the main monetary
fields and each item's prices, using the original (pre-conversion) subtotal as
the shared reference; the subtotal itself is converted without a reference. -/
def convertOrderMonetaryValues (orderData : OrderInput) : OrderInput :=
  let subtotalRef := orderData.subtotal
  { orderData with
    subtotal := orderData.subtotal.map (fun v => smartCurrencyConvert v none)
    tax := orderData.tax.map (fun v => smartCurrencyConvert v subtotalRef)
    discount := orderData.discount.map (fun v => smartCurrencyConvert v subtotalRef)
    total := orderData.total.map (fun v => smartCurrencyConvert v subtotalRef)
    shippingCost := orderData.shippingCost.map (fun v => smartCurrencyConvert v subtotalRef)
    items := orderData.items.map (fun l => l.map (fun item =>
      { item with
        unitPrice := smartCurrencyConvert item.unitPrice subtotalRef
        totalPrice := smartCurrencyConvert item.totalPrice subtotalRef })) }

/-! ## Google-Maps helpers — `src/utils/google-maps.ts` -/

/-- Model of `validateCoordinates`: `none` is valid, `some msg` the error. -/
def validateCoordinates (latitude longitude : ℚ) : Option String :=
  if latitude < -90 ∨ latitude > 90 then
    some "Latitude must be between -90 and 90 degrees"
  else if longitude < -180 ∨ longitude > 180 then
    some "Longitude must be between -180 and 180 degrees"
  else none

/-- Model of `autoGenerateGoogleMapsLink`: fill in a link when both coordinates
are truthy and no link is present (URL formatting via `Env.formatMapsLink`). -/
def autoGenerateGoogleMapsLink (env : Env) (addr : DeliveryAddress) : DeliveryAddress :=
  if !(jsFalsyNum addr.latitude) && !(jsFalsyNum addr.longitude) &&
      !(truthyStr addr.googleMapsLink) then
    { addr with googleMapsLink := some (env.formatMapsLink (addr.latitude.getD 0)
        (addr.longitude.getD 0)
        (if addr.recipientName == "" then addr.street ++ ", " ++ addr.city
         else addr.recipientName)) }
  else addr

/-- Controller lines 142–152: extract coordinates from a provided link when
both coordinates are falsy, then auto-generate a link. -/
def googleMapsPostprocess (env : Env) (addr : DeliveryAddress) : DeliveryAddress :=
  let addr1 :=
    if truthyStr addr.googleMapsLink && jsFalsyNum addr.latitude &&
        jsFalsyNum addr.longitude then
      match env.extractCoords (addr.googleMapsLink.getD "") with
      | some p => { addr with latitude := some p.1, longitude := some p.2 }
      | none => addr
    else addr
  autoGenerateGoogleMapsLink env addr1

/-! ## The controller — `createOrder`, `src/controllers/order.controller.ts` -/

/-- Controller lines 170–174: default the payment status from the payment
reference when no (truthy) status was supplied. -/
def finalPaymentStatus (paymentStatus paymentReference : Option String) : String :=
  let fps := if truthyStr paymentStatus then paymentStatus.getD "" else "pending"
  if !(truthyStr paymentStatus) && truthyStr paymentReference &&
      !(jsTrim (paymentReference.getD "") == "") then "paid"
  else fps

/-- Controller lines 155–200: the pricing recomputation and the assembled
order document. Subtotal is the rounded sum of the converted item totals, tax
is computed from it and the raw `taxRate || 0`, the discount is the converted
`discount || 0`, shipping comes from the zone table, and the stored total is
the rounded recomputed total (the client-submitted `total` is not used). -/
def buildOrderDoc (env : Env) (req : OrderInput) (billing : BillingInfo)
    (addr : DeliveryAddress) (zone : DeliveryZone) : OrderDoc :=
  let convertedOrderData := convertOrderMonetaryValues req
  let calculatedShippingCost := env.zonePrice zone
  let calculatedSubtotal :=
    round2 (((convertedOrderData.items.getD []).map OrderItem.totalPrice).sum)
  let calculatedTax := round2 (calculatedSubtotal * (req.taxRate.getD 0))
  let calculatedDiscount := (convertedOrderData.discount).getD 0
  let calculatedTotal :=
    calculatedSubtotal + calculatedTax + calculatedShippingCost - calculatedDiscount
  { orderNumber := ""
    customer := req.customer.getD ""
    items := convertedOrderData.items.getD []
    subtotal := calculatedSubtotal
    tax := calculatedTax
    taxRate := req.taxRate.getD 0
    discount := calculatedDiscount
    discountType := jsOrStr req.discountType "fixed"
    total := round2 calculatedTotal
    paymentMethod := jsOrStr req.paymentMethod "cash"
    paymentReference := req.paymentReference
    paymentStatus := finalPaymentStatus req.paymentStatus req.paymentReference
    billingInfo := billing
    deliveryAddress := addr
    deliveryZone := zone
    shippingMethod := jsOrStr req.shippingMethod "delivery"
    shippingCost := calculatedShippingCost
    createdBy := req.createdBy }

/-- Model of `createOrder` (controller lines 16–200), up to the document that
is handed to `save`.  The guard chain follows the source order; the
delivery-zone guard (`!deliveryZone || !isValidDeliveryZone(deliveryZone)`) is
rendered as the parse `req.deliveryZone.bind zoneOfString` being `none` (an
absent or empty or unknown zone string parses to `none`). -/
def createOrder (env : Env) (req : OrderInput) : Except OrderError OrderDoc :=
  if !(truthyStr req.customer) || req.items.isNone || (req.items.getD []).isEmpty then
    .error (.badRequest "Customer and items are required.")
  else if !(env.isValidObjectId (req.customer.getD "")) then
    .error (.badRequest "Invalid customer ID format.")
  else
    match req.billingInfo with
    | none =>
      .error (.badRequest "Billing information with cedula, full name, and phone are required.")
    | some billingInfo =>
      if billingInfo.cedula == "" || billingInfo.fullName == "" || billingInfo.phone == "" then
        .error (.badRequest "Billing information with cedula, full name, and phone are required.")
      else if !(validateEcuadorCedula billingInfo.cedula) then
        .error (.badRequest "Invalid Ecuador cedula format.")
      else if !(validateEcuadorPhone billingInfo.phone) then
        .error (.badRequest "Invalid Ecuador phone number format for billing.")
      else
        match req.deliveryAddress with
        | none => .error (.badRequest "Complete delivery address information is required.")
        | some deliveryAddress0 =>
          if deliveryAddress0.street == "" || deliveryAddress0.city == "" ||
              deliveryAddress0.recipientName == "" || deliveryAddress0.recipientPhone == "" then
            .error (.badRequest "Complete delivery address information is required.")
          else
            match req.deliveryZone.bind zoneOfString with
            | none => .error (.badRequest "Valid delivery zone is required.")
            | some zone =>
              if !(validateEcuadorPhone deliveryAddress0.recipientPhone) then
                .error (.badRequest "Invalid Ecuador phone number format for delivery.")
              else if !(env.userExists (req.customer.getD "")) then
                .error (.notFound "Customer not found.")
              else if (deliveryAddress0.latitude.isSome || deliveryAddress0.longitude.isSome) &&
                  (deliveryAddress0.latitude.isNone || deliveryAddress0.longitude.isNone) then
                .error (.badRequest "Both latitude and longitude are required when providing coordinates.")
              else
                match
                  match deliveryAddress0.latitude, deliveryAddress0.longitude with
                  | some la, some lo => validateCoordinates la lo
                  | _, _ => none
                with
                | some msg => .error (.badRequest msg)
                | none =>
                  .ok (buildOrderDoc env req billingInfo
                    (googleMapsPostprocess env deliveryAddress0) zone)

/-! ## The order model — schema validation, `pre('save')` hooks, unique index -/

/-- The schema's field validators restricted to the modelled fields: required
strings are non-empty, quantities are integers ≥ 1, monetary fields are
non-negative, `taxRate ∈ [0, 1]`, the enums, the billing/phone regexes, the
coordinate bounds and the link check (URL patterns via `Env.mapsLinkValid`).
Mongoose runs this validation before the user `pre('save')` hooks. -/
def schemaValidate (env : Env) (o : OrderDoc) : Bool :=
  !(o.customer == "") &&
  !o.items.isEmpty &&
  o.items.all (fun item =>
    !(item.productId == "") && !(item.productName == "") && !(item.productSku == "") &&
    decide (1 ≤ item.quantity) && jsIsInteger item.quantity &&
    decide (0 ≤ item.unitPrice) && decide (0 ≤ item.totalPrice)) &&
  decide (0 ≤ o.subtotal) && decide (0 ≤ o.tax) &&
  decide (0 ≤ o.taxRate) && decide (o.taxRate ≤ 1) &&
  decide (0 ≤ o.discount) &&
  (o.discountType == "percentage" || o.discountType == "fixed") &&
  decide (0 ≤ o.total) &&
  (o.paymentStatus == "pending" || o.paymentStatus == "paid" ||
    o.paymentStatus == "failed" || o.paymentStatus == "refunded" ||
    o.paymentStatus == "partially_refunded") &&
  (o.paymentMethod == "cash" || o.paymentMethod == "card" ||
    o.paymentMethod == "transfer" || o.paymentMethod == "mercately" ||
    o.paymentMethod == "payphone" || o.paymentMethod == "other") &&
  validateEcuadorCedula o.billingInfo.cedula &&
  !(o.billingInfo.fullName == "") &&
  validateEcuadorPhone o.billingInfo.phone &&
  !(o.deliveryAddress.street == "") && !(o.deliveryAddress.city == "") &&
  !(o.deliveryAddress.state == "") && !(o.deliveryAddress.zipCode == "") &&
  !(o.deliveryAddress.country == "") &&
  !(o.deliveryAddress.recipientName == "") &&
  validateEcuadorPhone o.deliveryAddress.recipientPhone &&
  (match o.deliveryAddress.latitude with
   | some la => decide (-90 ≤ la) && decide (la ≤ 90)
   | none => true) &&
  (match o.deliveryAddress.longitude with
   | some lo => decide (-180 ≤ lo) && decide (lo ≤ 180)
   | none => true) &&
  (match o.deliveryAddress.googleMapsLink with
   | some v => (v == "") || env.mapsLinkValid v
   | none => true) &&
  (o.shippingMethod == "pickup" || o.shippingMethod == "delivery" ||
    o.shippingMethod == "shipping") &&
  decide (0 ≤ o.shippingCost)

/-- The scope prompt of the generation query: the string
`ORDER-{year}-{month padded to 2}-` used both as the `^...` regex and as the
front of the generated number. -/
def scopeStr (year month : Nat) : String :=
  "ORDER-" ++ Nat.repr year ++ "-" ++ padStart 2 (Nat.repr month) ++ "-"

/-- Model of the generation query `findOne` on the regex `^ORDER-{year}-{month}-`
with descending sort on `orderNumber`: the lexicographically largest existing
number in the year-month scope. -/
def lastScopedOrder (existing : List String) (year month : Nat) : Option String :=
  let inScope := existing.filter (fun s => (scopeStr year month).data.isPrefixOf s.data)
  inScope.foldl (fun acc s =>
    match acc with
    | none => some s
    | some m => if charListLt m.data s.data then some s else some m) none

/-- Model of the order-number generation of the second `pre('save')` hook
(model lines 676–693): read the lexicographically largest scoped number,
`parseInt` its segment after the last dash (`'0'` when that segment is empty),
add one, and pad to at least three digits.  A non-numeric segment makes
`parseInt` return NaN, which prints as `"NaN"`. -/
def genOrderNumber (existing : List String) (year month : Nat) : String :=
  match lastScopedOrder existing year month with
  | none => scopeStr year month ++ padStart 3 (Nat.repr 1)
  | some lastOrder =>
    match afterLastDash lastOrder.data with
    | [] => scopeStr year month ++ padStart 3 (Nat.repr (0 + 1))
    | ds =>
      match jsParseIntNat ds with
      | some lastNumber => scopeStr year month ++ padStart 3 (Nat.repr (lastNumber + 1))
      | none => scopeStr year month ++ "NaN"

/-- The number-generation half of the second `pre('save')` hook: generate the
order number when none is set, leaving every other field unchanged. -/
def hookNumber (existing : List String) (now : OrderDate) (doc : OrderDoc) : OrderDoc :=
  if doc.orderNumber == "" then
    { doc with orderNumber := genOrderNumber existing now.year now.month }
  else doc

/-- Model of `newOrder.save()` against a store holding the order numbers
`existing`: Mongoose schema validation, then the `pre('save')` hooks in
registration order (the delivery-margin hook touches no modelled field; the
number-generation/total hook; the item/subtotal hook), then the insert guarded
by the unique index on `orderNumber`.  Returns the saved document and the new
store contents. -/
def saveOrder (env : Env) (existing : List String) (now : OrderDate) (doc : OrderDoc) :
    Except OrderError (OrderDoc × List String) :=
  if !(schemaValidate env doc) then
    .error (.validationError "Order validation failed")
  else if |round2 (hookNumber existing now doc).total -
      round2 ((hookNumber existing now doc).subtotal + (hookNumber existing now doc).tax +
        (hookNumber existing now doc).shippingCost - (hookNumber existing now doc).discount)| >
      1 / 100 then
    .error (.saveError "Total amount does not match calculated total")
  else if !((hookNumber existing now doc).items.all (fun item =>
      |round2 item.totalPrice - round2 (item.quantity * item.unitPrice)| ≤ 1 / 100)) then
    .error (.saveError "Item total does not match calculated total")
  else if |round2 (hookNumber existing now doc).subtotal -
      round2 (((hookNumber existing now doc).items.map OrderItem.totalPrice).sum)| > 1 / 100 then
    .error (.saveError "Subtotal does not match sum of item totals")
  else if (hookNumber existing now doc).orderNumber ∈ existing then
    .error (.duplicateKey (hookNumber existing now doc).orderNumber)
  else
    .ok (hookNumber existing now doc, existing ++ [(hookNumber existing now doc).orderNumber])

/-- The full pipeline of one `POST /api/orders` request: the controller's
`createOrder` followed by `newOrder.save()`. -/
def createOrderAndSave (env : Env) (existing : List String) (now : OrderDate)
    (req : OrderInput) : Except OrderError (OrderDoc × List String) :=
  match createOrder env req with
  | .error e => .error e
  | .ok doc => saveOrder env existing now doc

/-! ## Structural lemmas about the pipeline -/

/-- A successful `createOrder` implies the request passed every guard, and the
returned document is `buildOrderDoc` at the parsed billing block, the
post-processed address and the parsed zone. -/
theorem createOrder_ok_elim (env : Env) (req : OrderInput) (doc : OrderDoc)
    (h : createOrder env req = .ok doc) :
    ∃ billing addr0 zone,
      req.billingInfo = some billing ∧
      req.deliveryAddress = some addr0 ∧
      req.deliveryZone.bind zoneOfString = some zone ∧
      doc = buildOrderDoc env req billing (googleMapsPostprocess env addr0) zone := by
  unfold createOrder at h
  repeat' split at h
  all_goals try exact Except.noConfusion h
  injection h with h
  exact ⟨_, _, _, by assumption, by assumption, by assumption, h.symm⟩

/-- Field preservation of the number-generation hook. -/
theorem hookNumber_fields (existing : List String) (now : OrderDate) (doc : OrderDoc) :
    (hookNumber existing now doc).items = doc.items ∧
    (hookNumber existing now doc).subtotal = doc.subtotal ∧
    (hookNumber existing now doc).tax = doc.tax ∧
    (hookNumber existing now doc).taxRate = doc.taxRate ∧
    (hookNumber existing now doc).discount = doc.discount ∧
    (hookNumber existing now doc).total = doc.total ∧
    (hookNumber existing now doc).shippingCost = doc.shippingCost ∧
    (hookNumber existing now doc).paymentStatus = doc.paymentStatus ∧
    (hookNumber existing now doc).deliveryZone = doc.deliveryZone := by
  unfold hookNumber
  split <;> exact ⟨rfl, rfl, rfl, rfl, rfl, rfl, rfl, rfl, rfl⟩

/-- A successful `save` implies: the schema validated, the saved document is
the hook output (so every non-`orderNumber` field of the input document is
preserved), the monetary cross-checks passed, the number was fresh, and the
store grew by exactly that number. -/
theorem saveOrder_ok_elim (env : Env) (existing : List String) (now : OrderDate)
    (doc : OrderDoc) (out : OrderDoc × List String)
    (h : saveOrder env existing now doc = .ok out) :
    schemaValidate env doc = true ∧
    out.1 = hookNumber existing now doc ∧
    |round2 out.1.total -
      round2 (out.1.subtotal + out.1.tax + out.1.shippingCost - out.1.discount)| ≤ 1 / 100 ∧
    (out.1.items.all (fun item =>
      |round2 item.totalPrice - round2 (item.quantity * item.unitPrice)| ≤ 1 / 100)) = true ∧
    |round2 out.1.subtotal - round2 ((out.1.items.map OrderItem.totalPrice).sum)| ≤ 1 / 100 ∧
    ¬ (out.1.orderNumber ∈ existing) ∧
    out.2 = existing ++ [out.1.orderNumber] := by
  unfold saveOrder at h
  repeat' split at h
  all_goals try exact Except.noConfusion h
  injection h with h
  subst h
  rename_i hschema htotal hitems hsub hmem
  refine ⟨by simpa using hschema, rfl, by simpa using htotal, by simpa using hitems,
    by simpa using hsub, by simpa using hmem, rfl⟩

/-! ## Concurrent allocation model

One order-number allocation consists of two store interactions: the
read-and-compute of the generation hook (`findOne` + `parseInt` + format) and
the insert guarded by the unique index.  Concurrent requests interleave these
atomic steps arbitrarily; a schedule is the list of request indices in the
order their next step runs. -/

/-- The per-request allocation state machine. -/
inductive ReqPhase where
  | start
  | gotCandidate (candidate : String)
  | ok (orderNumber : String)
  | failed (orderNumber : String)
deriving DecidableEq

/-- A store (persisted order numbers, in insertion order) together with the
phase of every in-flight request. -/
structure AllocSystem where
  saved : List String
  reqs : List ReqPhase
deriving DecidableEq

/-- One atomic step of request `i`: a request at `start` runs the generation
query against the current store and obtains its candidate; a request holding a
candidate attempts the insert, which the unique index rejects exactly when the
candidate is already stored.  Other indices (finished requests, out-of-range
indices) do nothing. -/
def allocStep (now : OrderDate) (sys : AllocSystem) (i : Nat) : AllocSystem :=
  match sys.reqs.get? i with
  | some .start =>
    { sys with reqs := sys.reqs.set i (.gotCandidate (genOrderNumber sys.saved now.year now.month)) }
  | some (.gotCandidate c) =>
    if c ∈ sys.saved then { sys with reqs := sys.reqs.set i (.failed c) }
    else { saved := sys.saved ++ [c], reqs := sys.reqs.set i (.ok c) }
  | _ => sys

/-- Run a schedule of interleaved steps. -/
def allocRun (now : OrderDate) (sys : AllocSystem) (sched : List Nat) : AllocSystem :=
  sched.foldl (allocStep now) sys

/-- The successful-completion marker of a phase. -/
def okN : ReqPhase → Option String
  | .ok n => some n
  | _ => none

/-- The numbers of the requests that completed successfully. -/
def okNumbers (reqs : List ReqPhase) : List String :=
  reqs.filterMap okN

/-- A fresh system of `n` concurrent order creations over a store. -/
def initSystem (saved : List String) (n : Nat) : AllocSystem :=
  { saved := saved, reqs := List.replicate n .start }

/-- The invariant every reachable allocation system maintains: the store is
duplicate-free, the successful requests hold pairwise-distinct numbers, and
every such number is in the store. -/
def AllocInv (sys : AllocSystem) : Prop :=
  sys.saved.Nodup ∧ (okNumbers sys.reqs).Nodup ∧
    ∀ x ∈ okNumbers sys.reqs, x ∈ sys.saved

/-- Replacing a non-successful phase by a non-successful phase leaves the
successful numbers unchanged. -/
theorem filterMap_okN_set_none (l : List ReqPhase) (i : Nat) (p p' : ReqPhase)
    (hg : l.get? i = some p) (hp : okN p = none) (hp' : okN p' = none) :
    (l.set i p').filterMap okN = l.filterMap okN := by
  induction l generalizing i with
  | nil => exact Option.noConfusion hg
  | cons a l ih =>
    cases i with
    | zero =>
      injection hg with hg
      subst hg
      simp [List.filterMap_cons, hp, hp']
    | succ i =>
      simp only [List.set, List.filterMap_cons]
      rw [ih i hg]

/-- Replacing a non-successful phase by a success splits the successful
numbers around the new number. -/
theorem filterMap_okN_set_ok (l : List ReqPhase) (i : Nat) (p : ReqPhase) (c : String)
    (hg : l.get? i = some p) (hp : okN p = none) :
    ∃ l1 l2, l.filterMap okN = l1 ++ l2 ∧
      (l.set i (.ok c)).filterMap okN = l1 ++ c :: l2 := by
  induction l generalizing i with
  | nil => exact Option.noConfusion hg
  | cons a l ih =>
    cases i with
    | zero =>
      injection hg with hg
      subst hg
      exact ⟨[], l.filterMap okN, by simp [List.filterMap_cons, hp],
        by simp [List.filterMap_cons, okN]⟩
    | succ i =>
      obtain ⟨l1, l2, h1, h2⟩ := ih i hg
      cases ha : okN a with
      | none =>
        refine ⟨l1, l2, ?_, ?_⟩
        · simp [List.filterMap_cons, ha, h1]
        · simp [List.set, List.filterMap_cons, ha, h2]
      | some s =>
        refine ⟨s :: l1, l2, ?_, ?_⟩
        · simp [List.filterMap_cons, ha, h1]
        · simp [List.set, List.filterMap_cons, ha, h2]

/-- One interleaved step preserves the allocation invariant: the insert is
guarded by the unique index, so a duplicate candidate fails explicitly instead
of entering the store. -/
theorem allocStep_inv (now : OrderDate) (sys : AllocSystem) (i : Nat)
    (h : AllocInv sys) : AllocInv (allocStep now sys i) := by
  obtain ⟨hnd, hok, hsub⟩ := h
  unfold allocStep
  split
  · rename_i hg
    have heq := filterMap_okN_set_none sys.reqs i ReqPhase.start
      (.gotCandidate (genOrderNumber sys.saved now.year now.month)) hg rfl rfl
    refine ⟨hnd, ?_, ?_⟩
    · show ((sys.reqs.set i _).filterMap okN).Nodup
      rw [heq]
      exact hok
    · intro x hx
      replace hx : x ∈ (sys.reqs.set i _).filterMap okN := hx
      rw [heq] at hx
      exact hsub x hx
  · rename_i c hg
    split
    · have heq := filterMap_okN_set_none sys.reqs i (ReqPhase.gotCandidate c)
        (.failed c) hg rfl rfl
      refine ⟨hnd, ?_, ?_⟩
      · show ((sys.reqs.set i _).filterMap okN).Nodup
        rw [heq]
        exact hok
      · intro x hx
        replace hx : x ∈ (sys.reqs.set i _).filterMap okN := hx
        rw [heq] at hx
        exact hsub x hx
    · rename_i hcmem
      obtain ⟨l1, l2, h1, h2⟩ :=
        filterMap_okN_set_ok sys.reqs i (ReqPhase.gotCandidate c) c hg rfl
      have hsplit : okNumbers sys.reqs = l1 ++ l2 := h1
      have hcnot : c ∉ l1 ++ l2 := by
        intro hc
        exact hcmem (hsub c (hsplit ▸ hc))
      refine ⟨?_, ?_, ?_⟩
      · show (sys.saved ++ [c]).Nodup
        simp only [List.nodup_append, List.nodup_cons, List.nodup_nil]
        refine ⟨hnd, ⟨by simp, by simp⟩, ?_⟩
        intro a ha hb
        simp only [List.mem_singleton] at hb
        subst hb
        exact hcmem ha
      · show ((sys.reqs.set i (.ok c)).filterMap okN).Nodup
        rw [h2, List.nodup_middle]
        exact List.nodup_cons.mpr ⟨hcnot, hsplit ▸ hok⟩
      · intro x hx
        show x ∈ sys.saved ++ [c]
        replace hx : x ∈ (sys.reqs.set i (.ok c)).filterMap okN := hx
        rw [h2] at hx
        rcases List.mem_append.mp hx with hx1 | hx2
        · exact List.mem_append.mpr (Or.inl (hsub x (hsplit ▸ List.mem_append.mpr (Or.inl hx1))))
        · rcases List.mem_cons.mp hx2 with hxc | hx2
          · subst hxc
            exact List.mem_append.mpr (Or.inr (List.mem_singleton.mpr rfl))
          · exact List.mem_append.mpr (Or.inl (hsub x (hsplit ▸ List.mem_append.mpr (Or.inr hx2))))
  · exact ⟨hnd, hok, hsub⟩

/-- Any interleaving preserves the allocation invariant. -/
theorem allocRun_inv (now : OrderDate) (sched : List Nat) (sys : AllocSystem)
    (h : AllocInv sys) : AllocInv (allocRun now sys sched) := by
  induction sched generalizing sys with
  | nil => exact h
  | cons i sched ih => exact ih _ (allocStep_inv now sys i h)

/-- A fresh batch of requests over a duplicate-free store satisfies the
invariant. -/
theorem initSystem_inv (saved : List String) (n : Nat) (h : saved.Nodup) :
    AllocInv (initSystem saved n) := by
  refine ⟨h, ?_, ?_⟩ <;>
    · have hrep : okNumbers (List.replicate n ReqPhase.start) = [] := by
        induction n with
        | zero => rfl
        | succ n ih =>
          rw [List.replicate_succ, okNumbers, List.filterMap_cons]
          exact ih
      simp [initSystem, hrep]

/-! ## Spec-side descriptions (for comparison against the code) -/

/-- The order-number wire format exactly as the spec states it:
`ORDER-{year:4}-{month:2}-{sequence:3, zero-padded}` — four segments separated
by dashes, `ORDER` then 4, 2 and exactly 3 digits. -/
def specOrderNumberFormatB (s : String) : Bool :=
  match splitOnDash s.data with
  | [o, y, m, q] =>
    o == "ORDER".data &&
    y.length == 4 && y.all Char.isDigit &&
    m.length == 2 && m.all Char.isDigit &&
    q.length == 3 && q.all Char.isDigit
  | _ => false

/-- The normalizer heuristic as the spec's §4.1 words it, amended only where
the counterexamples force it: rule (1) fires only for a truthy (non-zero)
provided reference, and a value classified as already-major-unit is returned
unchanged — only converted minor-unit values are rounded to 2 decimals. -/
def specNormalize (value : ℚ) (referenceValue : Option ℚ) : ℚ :=
  match referenceValue with
  | some r =>
    if r ≠ 0 ∧ value > r * 50 then round2 (value / 100)
    else if jsIsInteger value = true ∧ value ≥ 1000 then round2 (value / 100)
    else if jsIsInteger value = true ∧ value > 100 then round2 (value / 100)
    else value
  | none =>
    if jsIsInteger value = true ∧ value ≥ 1000 then round2 (value / 100)
    else if jsIsInteger value = true ∧ value > 100 then round2 (value / 100)
    else value

/-! ## Concrete instances for witnesses and counterexamples -/

/-- A concrete environment instance for concrete runs: 24-character ObjectIds,
every customer exists, a zone table with `samanes_suburbio ↦ 3.00` (the spec's
end-to-end scenarios use a zone costing 3.00), and trivial Google-Maps
collaborators. -/
def mockEnv : Env :=
  { isValidObjectId := fun s => s.length == 24
    userExists := fun _ => true
    zonePrice := fun z =>
      match z with
      | .samanes_suburbio => 3
      | .norte_sur_esteros => 4
      | .sambo => 5
      | .via_costa => 6
      | .aurora => 7
    extractCoords := fun _ => none
    formatMapsLink := fun _ _ _ => "https://www.google.com/maps"
    mapsLinkValid := fun _ => true }

/-- The line item of the spec's end-to-end scenario (1):
`{qty: 2, unitPrice: 12.50, totalPrice: 25.00}`. -/
def baseItem : OrderItem :=
  { productId := "web-1"
    productName := "Cake"
    productSku := "SKU-1"
    quantity := 2
    unitPrice := 25 / 2
    totalPrice := 25 }

/-- The billing block used by the concrete runs. -/
def baseBilling : BillingInfo :=
  { cedula := "0912345678", fullName := "Jane Doe", phone := "0991234567" }

/-- The delivery address used by the concrete runs. -/
def baseAddress : DeliveryAddress :=
  { street := "Av. Principal 123"
    city := "Guayaquil"
    state := "Guayas"
    zipCode := "090101"
    country := "Ecuador"
    recipientName := "Jane Doe"
    recipientPhone := "0991234567"
    latitude := none
    longitude := none
    googleMapsLink := none }

/-- The spec's end-to-end scenario (1) as a request body: one line
`{qty: 2, unitPrice: 12.50, totalPrice: 25.00}`, `taxRate 0.12`, a zone with
shipping cost 3.00, discount 0, and the matching totals. -/
def baseReq : OrderInput :=
  { customer := some "507f1f77bcf86cd799439011"
    items := some [baseItem]
    subtotal := some 25
    tax := some 3
    taxRate := some (12 / 100)
    discount := none
    discountType := some "fixed"
    total := some 31
    paymentMethod := some "cash"
    paymentReference := none
    paymentStatus := none
    billingInfo := some baseBilling
    deliveryAddress := some baseAddress
    deliveryZone := some "samanes_suburbio"
    shippingMethod := some "delivery"
    shippingCost := none
    createdBy := "staff-1" }

/-- A current date for concrete runs: January 2025. -/
def jan2025 : OrderDate := { year := 2025, month := 1 }

/-- The document the pipeline persists for `baseReq` against an empty store in
January 2025 (also for any variation of `baseReq` in the unread fields
`total`/`subtotal`/`shippingCost`): first order number of the month, subtotal
25, tax 3, shipping 3, total 31. -/
def baseSavedDoc : OrderDoc :=
  { orderNumber := "ORDER-2025-01-001"
    customer := "507f1f77bcf86cd799439011"
    items := [baseItem]
    subtotal := 25
    tax := 3
    taxRate := 12 / 100
    discount := 0
    discountType := "fixed"
    total := 31
    paymentMethod := "cash"
    paymentReference := none
    paymentStatus := "pending"
    billingInfo := baseBilling
    deliveryAddress := baseAddress
    deliveryZone := .samanes_suburbio
    shippingMethod := "delivery"
    shippingCost := 3
    createdBy := "staff-1" }

/-- A free line item: quantity 1 at unit price 0. -/
def freeItem : OrderItem :=
  { productId := "web-0"
    productName := "Sample"
    productSku := "SKU-0"
    quantity := 1
    unitPrice := 0
    totalPrice := 0 }

/-- An order document whose (exact) total `0.014` differs from the recomputed
rounded total `0.00` by more than `0.01`, while its rounded total `0.01` passes
the save hook's check: line of quantity 1 at price 0, all other monetary fields
0. -/
def c4doc : OrderDoc :=
  { orderNumber := ""
    customer := "507f1f77bcf86cd799439011"
    items := [freeItem]
    subtotal := 0
    tax := 0
    taxRate := 0
    discount := 0
    discountType := "fixed"
    total := 7 / 500
    paymentMethod := "cash"
    paymentReference := none
    paymentStatus := "pending"
    billingInfo := baseBilling
    deliveryAddress := baseAddress
    deliveryZone := .samanes_suburbio
    shippingMethod := "delivery"
    shippingCost := 0
    createdBy := "staff-1" }

/-! ## Claim C6 — idempotence of currency normalization -/

/-- C6, counterexample: normalization is **not** idempotent.  `100000` is
detected as minor-unit and converts to `1000`; normalizing the result again
with the same (absent) reference converts a second time, to `10`. -/
theorem C6_counterexample :
    smartCurrencyConvert 100000 none = 1000 ∧
    smartCurrencyConvert (smartCurrencyConvert 100000 none) none = 10 ∧
    ¬ ((10 : ℚ) = 1000) := by
  refine ⟨by decide, by decide, by decide⟩

/-- C6, amended: normalization is idempotent exactly when the first result is
not itself detected as minor-unit — a value not detected as minor-unit is
returned unchanged, and when the converted result of a detected value is no
longer detected against the same reference, a second normalization returns it
unchanged.  (When the converted result is still detected — e.g. integers
`≥ 100000`, or a small non-zero reference — the second application divides
again, as the counterexample shows.) -/
theorem C6_conditional_idempotence (v : ℚ) (r : Option ℚ) :
    (isLikelyInCents v r = false → smartCurrencyConvert v r = v) ∧
    (isLikelyInCents (smartCurrencyConvert v r) r = false →
      smartCurrencyConvert (smartCurrencyConvert v r) r = smartCurrencyConvert v r) := by
  constructor
  · intro h
    simp [smartCurrencyConvert, h]
  · intro h
    conv_lhs => rw [smartCurrencyConvert, h]
    simp

/-- C6, witness: an already-major-unit value (`25`) is returned unchanged, and
re-normalizing the conversion of `2500` (a detected minor-unit value whose
result `25` is no longer detected) is a no-op. -/
theorem C6_conditional_idempotence_witness :
    (isLikelyInCents 25 none = false ∧ smartCurrencyConvert 25 none = 25) ∧
    (isLikelyInCents (smartCurrencyConvert 2500 none) none = false ∧
      smartCurrencyConvert (smartCurrencyConvert 2500 none) none = smartCurrencyConvert 2500 none) :=
  ⟨⟨by decide, (C6_conditional_idempotence 25 none).1 (by decide)⟩,
   ⟨by decide, (C6_conditional_idempotence 2500 none).2 (by decide)⟩⟩

/-! ## Claim C7 — the normalizer heuristic, check order and rounding -/

/-- C7, counterexample: two concrete deviations from the claim.  The value
`12.345` is classified as already-major-unit and returned **unrounded** (the
claim says every returned output is rounded to 2 decimal places), and with a
provided reference `0` the candidate `50` exceeds `50 × 0`, yet the code skips
check (1) (a falsy reference) and returns `50` instead of dividing by 100. -/
theorem C7_counterexample :
    smartCurrencyConvert (2469 / 200) none = 2469 / 200 ∧
    ¬ (round2 (2469 / 200) = 2469 / 200) ∧
    ((50 : ℚ) > 0 * 50 ∧ smartCurrencyConvert 50 (some 0) = 50 ∧
      centsToDollars 50 = 1 / 2 ∧ ¬ ((50 : ℚ) = 1 / 2)) := by
  refine ⟨by decide, by decide, by decide, by decide, by decide, by decide⟩

/-- C7, amended: the heuristic applies its checks in the stated first-match
order, except that check (1) fires only when the provided reference is truthy
(non-zero), and the output is rounded to 2 decimal places only when a
minor-unit conversion occurred — an already-major-unit value is returned
unchanged.  Formally, `smartCurrencyConvert` equals the amended spec-side
description `specNormalize`. -/
theorem C7_normalizer_matches_spec (v : ℚ) (r : Option ℚ) :
    smartCurrencyConvert v r = specNormalize v r := by
  cases r with
  | none =>
    simp only [smartCurrencyConvert, isLikelyInCents, specNormalize, centsToDollars]
    by_cases h1 : jsIsInteger v = true <;> by_cases h2 : v ≥ 1000 <;>
      by_cases h3 : v > 100 <;> simp_all
    all_goals (split_ifs <;> tauto)
  | some rr =>
    simp only [smartCurrencyConvert, isLikelyInCents, specNormalize, centsToDollars]
    by_cases h0 : rr = 0 <;> by_cases h4 : v > rr * 50 <;>
      by_cases h1 : jsIsInteger v = true <;> by_cases h2 : v ≥ 1000 <;>
      by_cases h3 : v > 100 <;> simp_all
    all_goals (split_ifs <;> tauto)

/-- Bound between a rational and its 2-decimal rounding: half-up rounding at
two decimals moves a value by at most `0.005`. -/
theorem round2_sub_self_abs_le (t : ℚ) : |round2 t - t| ≤ 1 / 200 := by
  unfold round2
  have h1 : (⌊t * 100 + 1 / 2⌋ : ℚ) ≤ t * 100 + 1 / 2 := Int.floor_le _
  have h2 : t * 100 + 1 / 2 - 1 < (⌊t * 100 + 1 / 2⌋ : ℚ) := Int.sub_one_lt_floor _
  rw [abs_le]
  constructor <;> linarith

/-- The controller never reads the client-submitted `total`: the whole pipeline
result is unchanged under any value of that field. -/
theorem createOrder_total_irrelevant (env : Env) (req : OrderInput) (t : Option ℚ) :
    createOrder env { req with total := t } = createOrder env req := by
  cases req
  rfl

/-- The controller never reads the client-submitted `shippingCost`: the whole
pipeline result is unchanged under any value of that field. -/
theorem createOrder_shippingCost_irrelevant (env : Env) (req : OrderInput) (c : Option ℚ) :
    createOrder env { req with shippingCost := c } = createOrder env req := by
  cases req
  rfl

/-- A request whose delivery zone does not parse is rejected by the controller
with an HTTP 400 input-validation error, before any document is built. -/
theorem createOrder_zone_invalid (env : Env) (req : OrderInput)
    (hz : req.deliveryZone.bind zoneOfString = none) :
    ∃ msg, createOrder env req = .error (.badRequest msg) := by
  unfold createOrder
  repeat' split
  all_goals try exact ⟨_, rfl⟩
  all_goals simp_all

/-- The generation query returns one of the stored numbers. -/
theorem lastScopedOrder_mem (existing : List String) (y m : Nat) (s : String)
    (h : lastScopedOrder existing y m = some s) : s ∈ existing := by
  unfold lastScopedOrder at h
  have key : ∀ (l : List String) (acc : Option String),
      l.foldl (fun acc t =>
        match acc with
        | none => some t
        | some mx => if charListLt mx.data t.data then some t else some mx) acc = some s →
      s ∈ l ∨ acc = some s := by
    intro l
    induction l with
    | nil => intro acc hacc; exact Or.inr hacc
    | cons a l ih =>
      intro acc hacc
      rcases ih _ hacc with hmem | hstep
      · exact Or.inl (List.mem_cons_of_mem a hmem)
      · cases acc with
        | none =>
          injection hstep with hstep
          exact Or.inl (hstep ▸ List.mem_cons_self a l)
        | some mx =>
          dsimp only at hstep
          by_cases hlt : charListLt mx.data a.data = true
          · rw [if_pos hlt] at hstep
            injection hstep with hstep
            exact Or.inl (hstep ▸ List.mem_cons_self a l)
          · rw [if_neg hlt] at hstep
            exact Or.inr hstep
  rcases key _ none h with hmem | hbad
  · exact List.mem_of_mem_filter hmem
  · exact Option.noConfusion hbad

/-! ### The character-list order: irreflexive, transitive, trichotomous -/

/-- No string is lexicographically below itself. -/
theorem charListLt_irrefl (u : List Char) : charListLt u u = false := by
  induction u with
  | nil => rfl
  | cons a u ih =>
    show charListLt (a :: u) (a :: u) = false
    unfold charListLt
    rw [if_neg (lt_irrefl a), if_neg (lt_irrefl a)]
    exact ih

/-- The lexicographic comparison is transitive. -/
theorem charListLt_trans (u v w : List Char) (h1 : charListLt u v = true)
    (h2 : charListLt v w = true) : charListLt u w = true := by
  induction u generalizing v w with
  | nil =>
    cases v with
    | nil => exact absurd h1 (by simp [charListLt])
    | cons b bs =>
      cases w with
      | nil => exact absurd h2 (by simp [charListLt])
      | cons c cs => rfl
  | cons a u ih =>
    cases v with
    | nil => exact absurd h1 (by simp [charListLt])
    | cons b bs =>
      cases w with
      | nil => exact absurd h2 (by simp [charListLt])
      | cons c cs =>
        unfold charListLt at h1 h2 ⊢
        by_cases hab : a < b
        · by_cases hbc : b < c
          · rw [if_pos (lt_trans hab hbc)]
          · by_cases hcb : c < b
            · rw [if_neg hbc, if_pos hcb] at h2
              exact absurd h2 (by simp)
            · have hbceq : b = c := le_antisymm (not_lt.mp hcb) (not_lt.mp hbc)
              subst hbceq
              rw [if_pos hab]
        · by_cases hba : b < a
          · rw [if_neg hab, if_pos hba] at h1
            exact absurd h1 (by simp)
          · have habeq : a = b := le_antisymm (not_lt.mp hba) (not_lt.mp hab)
            subst habeq
            rw [if_neg hab, if_neg hba] at h1
            by_cases hbc : a < c
            · rw [if_pos hbc]
            · by_cases hcb : c < a
              · rw [if_neg hbc, if_pos hcb] at h2
                exact absurd h2 (by simp)
              · have hbceq : a = c := le_antisymm (not_lt.mp hcb) (not_lt.mp hbc)
                subst hbceq
                rw [if_neg hbc, if_neg hcb] at h2 ⊢
                exact ih bs cs h1 h2

/-- The lexicographic comparison is trichotomous. -/
theorem charListLt_trichotomy (u v : List Char) :
    charListLt u v = true ∨ u = v ∨ charListLt v u = true := by
  induction u generalizing v with
  | nil =>
    cases v with
    | nil => exact Or.inr (Or.inl rfl)
    | cons b bs => exact Or.inl rfl
  | cons a u ih =>
    cases v with
    | nil => exact Or.inr (Or.inr rfl)
    | cons b bs =>
      rcases lt_trichotomy a b with hab | hab | hab
      · exact Or.inl (by unfold charListLt; rw [if_pos hab])
      · subst hab
        rcases ih bs with h | h | h
        · refine Or.inl ?_
          unfold charListLt
          rw [if_neg (lt_irrefl a), if_neg (lt_irrefl a)]
          exact h
        · exact Or.inr (Or.inl (by rw [h]))
        · refine Or.inr (Or.inr ?_)
          unfold charListLt
          rw [if_neg (lt_irrefl a), if_neg (lt_irrefl a)]
          exact h
      · exact Or.inr (Or.inr (by unfold charListLt; rw [if_pos hab]))

/-- Comparing two strings with a common front reduces to their tails. -/
theorem charListLt_append_left (p u v : List Char) :
    charListLt (p ++ u) (p ++ v) = charListLt u v := by
  induction p with
  | nil => rfl
  | cons a p ih =>
    show charListLt (a :: (p ++ u)) (a :: (p ++ v)) = _
    conv_lhs => rw [charListLt]
    rw [if_neg (lt_irrefl a), if_neg (lt_irrefl a)]
    exact ih

/-! ### Decimal values of digit strings -/

/-- Shifting lemma for the `digitsToNat` fold. -/
theorem digitsToNat_foldl (l : List Char) (acc : Nat) :
    l.foldl (fun n c => n * 10 + (c.toNat - '0'.toNat)) acc =
      acc * 10 ^ l.length + digitsToNat l := by
  induction l generalizing acc with
  | nil => simp [digitsToNat]
  | cons c cs ih =>
    show cs.foldl _ (acc * 10 + (c.toNat - '0'.toNat)) = _
    rw [ih]
    have h2 : digitsToNat (c :: cs) =
        cs.foldl (fun n c => n * 10 + (c.toNat - '0'.toNat)) (0 * 10 + (c.toNat - '0'.toNat)) :=
      rfl
    rw [h2, ih, List.length_cons, pow_succ]
    ring

/-- Head/tail decomposition of the decimal value. -/
theorem digitsToNat_cons (c : Char) (cs : List Char) :
    digitsToNat (c :: cs) = (c.toNat - '0'.toNat) * 10 ^ cs.length + digitsToNat cs := by
  have h : digitsToNat (c :: cs) =
      cs.foldl (fun n c => n * 10 + (c.toNat - '0'.toNat)) (0 * 10 + (c.toNat - '0'.toNat)) :=
    rfl
  rw [h, digitsToNat_foldl]
  ring

/-- A digit character's code point lies in `[48, 57]`. -/
theorem char_digit_bounds (c : Char) (h : c.isDigit = true) :
    48 ≤ c.toNat ∧ c.toNat ≤ 57 := by
  rw [show c.isDigit = ('0' ≤ c && c ≤ '9') from rfl, Bool.and_eq_true] at h
  obtain ⟨h1, h2⟩ := h
  have h1' : '0' ≤ c := of_decide_eq_true h1
  have h2' : c ≤ '9' := of_decide_eq_true h2
  exact ⟨Char.le_def.mp h1', Char.le_def.mp h2'⟩

/-- The decimal value of an `n`-digit string is below `10 ^ n`. -/
theorem digitsToNat_lt_pow (l : List Char) (h : l.all Char.isDigit = true) :
    digitsToNat l < 10 ^ l.length := by
  induction l with
  | nil => simp [digitsToNat]
  | cons c cs ih =>
    rw [List.all_cons, Bool.and_eq_true] at h
    obtain ⟨hc, hcs⟩ := h
    rw [digitsToNat_cons]
    have h0 : '0'.toNat = 48 := rfl
    obtain ⟨hb1, hb2⟩ := char_digit_bounds c hc
    have hd : c.toNat - '0'.toNat ≤ 9 := by omega
    have ht := ih hcs
    calc (c.toNat - '0'.toNat) * 10 ^ cs.length + digitsToNat cs
        ≤ 9 * 10 ^ cs.length + digitsToNat cs := by
          exact Nat.add_le_add_right (Nat.mul_le_mul_right _ hd) _
      _ < 9 * 10 ^ cs.length + 10 ^ cs.length := Nat.add_lt_add_left ht _
      _ = 10 ^ (c :: cs).length := by rw [List.length_cons, pow_succ]; ring

/-- Character order coincides with code-point order. -/
theorem char_lt_iff_toNat (a b : Char) : a < b ↔ a.toNat < b.toNat :=
  ⟨fun h => Char.lt_def.mp h, fun h => Char.lt_def.mpr h⟩

/-- On equal-length digit strings, the lexicographic order is exactly the
order of decimal values. -/
theorem charListLt_iff_digitsToNat (u : List Char) :
    ∀ v, u.length = v.length → u.all Char.isDigit = true → v.all Char.isDigit = true →
    (charListLt u v = true ↔ digitsToNat u < digitsToNat v) := by
  induction u with
  | nil =>
    intro v hlen _ _
    cases v with
    | nil => simp [charListLt, digitsToNat]
    | cons b bs => simp at hlen
  | cons a u ih =>
    intro v hlen hu hv
    cases v with
    | nil => simp at hlen
    | cons b bs =>
      rw [List.all_cons, Bool.and_eq_true] at hu hv
      obtain ⟨ha, hu'⟩ := hu
      obtain ⟨hb, hv'⟩ := hv
      have hlen' : u.length = bs.length := by simpa using hlen
      have hTu : digitsToNat u < 10 ^ bs.length := hlen' ▸ digitsToNat_lt_pow u hu'
      have hTv : digitsToNat bs < 10 ^ bs.length := digitsToNat_lt_pow bs hv'
      have h0 : '0'.toNat = 48 := rfl
      obtain ⟨ha1, ha2⟩ := char_digit_bounds a ha
      obtain ⟨hb1, hb2⟩ := char_digit_bounds b hb
      rw [digitsToNat_cons, digitsToNat_cons, hlen']
      unfold charListLt
      by_cases hab : a < b
      · rw [if_pos hab]
        simp only [true_iff]
        have hdab : a.toNat - '0'.toNat < b.toNat - '0'.toNat := by
          have := (char_lt_iff_toNat a b).mp hab
          omega
        calc (a.toNat - '0'.toNat) * 10 ^ bs.length + digitsToNat u
            < (a.toNat - '0'.toNat) * 10 ^ bs.length + 10 ^ bs.length :=
              Nat.add_lt_add_left hTu _
          _ = (a.toNat - '0'.toNat + 1) * 10 ^ bs.length := by ring
          _ ≤ (b.toNat - '0'.toNat) * 10 ^ bs.length := Nat.mul_le_mul_right _ hdab
          _ ≤ (b.toNat - '0'.toNat) * 10 ^ bs.length + digitsToNat bs := Nat.le_add_right _ _
      · by_cases hba : b < a
        · rw [if_neg hab, if_pos hba]
          simp only [Bool.false_eq_true, false_iff, not_lt]
          have hdba : b.toNat - '0'.toNat < a.toNat - '0'.toNat := by
            have := (char_lt_iff_toNat b a).mp hba
            omega
          have hstep : (b.toNat - '0'.toNat) * 10 ^ bs.length + digitsToNat bs <
              (a.toNat - '0'.toNat) * 10 ^ bs.length + digitsToNat u := by
            calc (b.toNat - '0'.toNat) * 10 ^ bs.length + digitsToNat bs
                < (b.toNat - '0'.toNat) * 10 ^ bs.length + 10 ^ bs.length :=
                  Nat.add_lt_add_left hTv _
              _ = (b.toNat - '0'.toNat + 1) * 10 ^ bs.length := by ring
              _ ≤ (a.toNat - '0'.toNat) * 10 ^ bs.length := Nat.mul_le_mul_right _ hdba
              _ ≤ (a.toNat - '0'.toNat) * 10 ^ bs.length + digitsToNat u := Nat.le_add_right _ _
          exact Nat.le_of_lt hstep
        · have heq : a = b := le_antisymm (not_lt.mp hba) (not_lt.mp hab)
          subst heq
          rw [if_neg hab, if_neg hba]
          constructor
          · intro h
            exact Nat.add_lt_add_left ((ih bs hlen' hu' hv').mp h) _
          · intro h
            exact (ih bs hlen' hu' hv').mpr (Nat.lt_of_add_lt_add_left h)

/-! ### Splitting on dashes -/

/-- Splitting never yields an empty group list. -/
theorem splitOnDash_ne_nil (l : List Char) : splitOnDash l ≠ [] := by
  cases l with
  | nil => simp [splitOnDash]
  | cons c cs =>
    unfold splitOnDash
    cases splitOnDash cs with
    | nil => simp
    | cons g gs => by_cases h : c = '-' <;> simp [h]

/-- A dash-free string splits into the single group of itself. -/
theorem splitOnDash_dashfree (v : List Char) (h : v.all (fun c => !(c == '-')) = true) :
    splitOnDash v = [v] := by
  induction v with
  | nil => rfl
  | cons c cs ih =>
    rw [List.all_cons, Bool.and_eq_true] at h
    obtain ⟨hc, hcs⟩ := h
    have hc' : ¬ (c = '-') := by simpa using hc
    unfold splitOnDash
    rw [ih hcs]
    simp [hc']

/-- Peeling a dash-free front group off a split. -/
theorem splitOnDash_append (u rest : List Char) (h : u.all (fun c => !(c == '-')) = true) :
    splitOnDash (u ++ '-' :: rest) = u :: splitOnDash rest := by
  induction u with
  | nil =>
    show splitOnDash ('-' :: rest) = [] :: splitOnDash rest
    conv_lhs => rw [splitOnDash]
    cases hs : splitOnDash rest with
    | nil => exact absurd hs (splitOnDash_ne_nil rest)
    | cons g gs => simp
  | cons c u ih =>
    rw [List.all_cons, Bool.and_eq_true] at h
    obtain ⟨hc, hu⟩ := h
    have hc' : ¬ (c = '-') := by simpa using hc
    show splitOnDash (c :: (u ++ '-' :: rest)) = (c :: u) :: splitOnDash rest
    conv_lhs => rw [splitOnDash]
    rw [ih hu]
    simp [hc']

/-- The segment after the last dash of `l ++ '-' :: v` is `v`, for dash-free
`v` and an arbitrary front `l`. -/
theorem afterLastDash_append (l v : List Char) (h : v.all (fun c => !(c == '-')) = true) :
    afterLastDash (l ++ '-' :: v) = v := by
  suffices hx : ∃ x, x ≠ [] ∧ splitOnDash (l ++ '-' :: v) = x ++ [v] by
    obtain ⟨x, _, hx⟩ := hx
    rw [afterLastDash, hx, List.getLastD_concat]
  induction l with
  | nil =>
    refine ⟨[[]], by simp, ?_⟩
    show splitOnDash ('-' :: v) = [[]] ++ [v]
    unfold splitOnDash
    rw [splitOnDash_dashfree v h]
    simp
  | cons c l ih =>
    obtain ⟨x, hne, hx⟩ := ih
    cases x with
    | nil => exact absurd rfl hne
    | cons x1 x2 =>
      by_cases hc : c = '-'
      · refine ⟨[] :: x1 :: x2, by simp, ?_⟩
        show splitOnDash (c :: (l ++ '-' :: v)) = _
        unfold splitOnDash
        rw [hx]
        simp [hc]
      · refine ⟨(c :: x1) :: x2, by simp, ?_⟩
        show splitOnDash (c :: (l ++ '-' :: v)) = _
        unfold splitOnDash
        rw [hx]
        simp [hc]

/-- Digit characters are never dashes. -/
theorem isDigit_ne_dash (c : Char) (h : c.isDigit = true) : (!(c == '-')) = true := by
  simp only [Bool.not_eq_eq_eq_not, Bool.not_true, beq_eq_false_iff_ne, ne_eq]
  intro hc
  subst hc
  exact absurd h (by decide)

/-- An all-digit string is dash-free. -/
theorem all_digit_no_dash (l : List Char) (h : l.all Char.isDigit = true) :
    l.all (fun c => !(c == '-')) = true := by
  rw [List.all_eq_true] at h ⊢
  exact fun c hc => isDigit_ne_dash c (h c hc)

/-! ### The canonical zero-padded numbers below 1000 -/

/-- The canonical order number of sequence `k` in the scope of `year`/`month`:
exactly the string the generator emits for `nextNumber = k`. -/
def canonOrderNumber (year month k : Nat) : String :=
  scopeStr year month ++ padStart 3 (Nat.repr k)

set_option maxRecDepth 10000 in
set_option maxHeartbeats 1000000 in
/-- For every sequence below 1000, the padded decimal representation consists
of digits, has length exactly 3, and parses back to the sequence.  (A finite
fact, checked by evaluation over all 1000 cases.) -/
theorem padded_repr_facts : ∀ k, k < 1000 →
    ((padStart 3 (Nat.repr k)).data.all Char.isDigit = true ∧
     (padStart 3 (Nat.repr k)).data.length = 3 ∧
     digitsToNat (padStart 3 (Nat.repr k)).data = k) := by decide

/-- Character-level decomposition of a canonical number at its final dash. -/
theorem canonOrderNumber_data (y m k : Nat) :
    (canonOrderNumber y m k).data =
      ("ORDER-" ++ Nat.repr y ++ "-" ++ padStart 2 (Nat.repr m)).data ++
        '-' :: (padStart 3 (Nat.repr k)).data := by
  have h2 : ("-" : String).data = ['-'] := by decide
  unfold canonOrderNumber scopeStr
  simp [String.data_append, h2, List.append_assoc]

/-- Full character-level decomposition of a canonical number into its four
dash-separated segments. -/
theorem canonOrderNumber_data4 (y m k : Nat) :
    (canonOrderNumber y m k).data =
      "ORDER".data ++ '-' :: ((Nat.repr y).data ++ '-' ::
        ((padStart 2 (Nat.repr m)).data ++ '-' :: (padStart 3 (Nat.repr k)).data)) := by
  have h1 : ("ORDER-" : String).data = "ORDER".data ++ ['-'] := by decide
  have h2 : ("-" : String).data = ['-'] := by decide
  unfold canonOrderNumber scopeStr
  simp [String.data_append, h1, h2, List.append_assoc]

/-- `split('-').pop()` of a canonical number is its padded sequence. -/
theorem afterLastDash_canon (y m k : Nat) (hk : k < 1000) :
    afterLastDash (canonOrderNumber y m k).data = (padStart 3 (Nat.repr k)).data := by
  rw [canonOrderNumber_data]
  exact afterLastDash_append _ _ (all_digit_no_dash _ (padded_repr_facts k hk).1)

/-- `parseInt` of a padded sequence below 1000 recovers the sequence. -/
theorem jsParseIntNat_padded (k : Nat) (hk : k < 1000) :
    jsParseIntNat (padStart 3 (Nat.repr k)).data = some k := by
  obtain ⟨hdig, hlen, hval⟩ := padded_repr_facts k hk
  have htw : (padStart 3 (Nat.repr k)).data.takeWhile Char.isDigit =
      (padStart 3 (Nat.repr k)).data :=
    List.takeWhile_eq_self_iff.mpr (List.all_eq_true.mp hdig)
  have hne : ¬ ((padStart 3 (Nat.repr k)).data.isEmpty = true) := by
    intro h0
    rw [List.isEmpty_iff] at h0
    rw [h0] at hlen
    simp at hlen
  simp only [jsParseIntNat, htw]
  rw [if_neg hne, hval]

/-- On canonical numbers with sequences below 1000, the store's sort order is
the numeric order of the sequences. -/
theorem canon_lt_iff (y m a b : Nat) (ha : a < 1000) (hb : b < 1000) :
    (charListLt (canonOrderNumber y m a).data (canonOrderNumber y m b).data = true ↔ a < b) := by
  have key : ∀ (x : List Char),
      ("ORDER-" ++ Nat.repr y ++ "-" ++ padStart 2 (Nat.repr m)).data ++ '-' :: x =
        (("ORDER-" ++ Nat.repr y ++ "-" ++ padStart 2 (Nat.repr m)).data ++ ['-']) ++ x :=
    fun x => by simp
  rw [canonOrderNumber_data, canonOrderNumber_data, key (padStart 3 (Nat.repr a)).data,
    key (padStart 3 (Nat.repr b)).data, charListLt_append_left]
  obtain ⟨hda, hla, hva⟩ := padded_repr_facts a ha
  obtain ⟨hdb, hlb, hvb⟩ := padded_repr_facts b hb
  rw [charListLt_iff_digitsToNat _ _ (by rw [hla, hlb]) hda hdb, hva, hvb]

/-- Canonical numbers below 1000 are pairwise distinct. -/
theorem canon_inj (y m a b : Nat) (ha : a < 1000) (hb : b < 1000)
    (h : canonOrderNumber y m a = canonOrderNumber y m b) : a = b := by
  have h1 : afterLastDash (canonOrderNumber y m a).data =
      afterLastDash (canonOrderNumber y m b).data := by rw [h]
  rw [afterLastDash_canon y m a ha, afterLastDash_canon y m b hb] at h1
  have h2 := congrArg digitsToNat h1
  rw [(padded_repr_facts a ha).2.2, (padded_repr_facts b hb).2.2] at h2
  exact h2

/-- A list is a `isPrefixOf`-prefix of itself extended. -/
theorem isPrefixOf_append_self (l t : List Char) : l.isPrefixOf (l ++ t) = true :=
  List.isPrefixOf_iff_prefix.mpr (List.prefix_append l t)

/-- Canonical numbers carry their scope as a prefix. -/
theorem scope_isPrefixOf_canon (y m k : Nat) :
    (scopeStr y m).data.isPrefixOf (canonOrderNumber y m k).data = true := by
  rw [show (canonOrderNumber y m k).data =
      (scopeStr y m).data ++ (padStart 3 (Nat.repr k)).data from by
    rw [canonOrderNumber, String.data_append]]
  exact isPrefixOf_append_self _ _

/-- Absence of strict lexicographic increase is transitive. -/
theorem charListLt_notlt_trans (u v w : List Char)
    (h1 : charListLt u v = false) (h2 : charListLt v w = false) :
    charListLt u w = false := by
  cases h : charListLt u w with
  | false => rfl
  | true =>
    rcases charListLt_trichotomy v w with hvw | hvw | hvw
    · rw [hvw] at h2
      exact Bool.noConfusion h2
    · rw [← hvw] at h
      rw [h] at h1
      exact Bool.noConfusion h1
    · have := charListLt_trans u w v h hvw
      rw [this] at h1
      exact Bool.noConfusion h1

/-- The descending-sort query's fold: its result is an element of the list (or
the start accumulator), and nothing in the list (or the accumulator) is
lexicographically above it. -/
theorem foldMax_spec (l : List String) (acc : Option String) (res : String)
    (h : l.foldl (fun acc s =>
      match acc with
      | none => some s
      | some m => if charListLt m.data s.data then some s else some m) acc = some res) :
    (res ∈ l ∨ acc = some res) ∧
    (∀ t ∈ l, charListLt res.data t.data = false) ∧
    (∀ a, acc = some a → charListLt res.data a.data = false) := by
  induction l generalizing acc with
  | nil =>
    rw [List.foldl_nil] at h
    refine ⟨Or.inr h, by simp, ?_⟩
    intro a ha
    have hra := Option.some.inj (h.symm.trans ha)
    rw [← hra]
    exact charListLt_irrefl _
  | cons t l ih =>
    rw [List.foldl_cons] at h
    cases acc with
    | none =>
      obtain ⟨hmem, hdom, hacc⟩ := ih _ h
      have hnt : charListLt res.data t.data = false := hacc t rfl
      refine ⟨?_, ?_, ?_⟩
      · rcases hmem with hm | hm
        · exact Or.inl (List.mem_cons_of_mem t hm)
        · have htr : t = res := Option.some.inj hm
          exact Or.inl (htr ▸ List.mem_cons_self t l)
      · intro s hs
        rcases List.mem_cons.mp hs with hs | hs
        · rw [hs]
          exact hnt
        · exact hdom s hs
      · intro a ha
        exact Option.noConfusion ha
    | some mx =>
      obtain ⟨hmem, hdom, hacc⟩ := ih _ h
      cases hlt : charListLt mx.data t.data with
      | true =>
        have hft : (if charListLt mx.data t.data then some t else some mx) = some t := by
          simp [hlt]
        have hnt : charListLt res.data t.data = false := hacc t hft
        have hnmx : charListLt res.data mx.data = false := by
          cases hres : charListLt res.data mx.data with
          | false => rfl
          | true =>
            have htt := charListLt_trans _ _ _ hres hlt
            rw [htt] at hnt
            exact Bool.noConfusion hnt
        refine ⟨?_, ?_, ?_⟩
        · rcases hmem with hm | hm
          · exact Or.inl (List.mem_cons_of_mem t hm)
          · have htr : t = res := Option.some.inj (hft.symm.trans hm)
            exact Or.inl (htr ▸ List.mem_cons_self t l)
        · intro s hs
          rcases List.mem_cons.mp hs with hs | hs
          · rw [hs]
            exact hnt
          · exact hdom s hs
        · intro a ha
          have hma : mx = a := Option.some.inj ha
          rw [← hma]
          exact hnmx
      | false =>
        have hfm : (if charListLt mx.data t.data then some t else some mx) = some mx := by
          simp [hlt]
        have hnmx : charListLt res.data mx.data = false := hacc mx hfm
        have hnt : charListLt res.data t.data = false :=
          charListLt_notlt_trans _ _ _ hnmx hlt
        refine ⟨?_, ?_, ?_⟩
        · rcases hmem with hm | hm
          · exact Or.inl (List.mem_cons_of_mem t hm)
          · have hmr : mx = res := Option.some.inj (hfm.symm.trans hm)
            exact Or.inr (by rw [hmr])
        · intro s hs
          rcases List.mem_cons.mp hs with hs | hs
          · rw [hs]
            exact hnt
          · exact hdom s hs
        · intro a ha
          have hma : mx = a := Option.some.inj ha
          rw [← hma]
          exact hnmx

/-- The fold of the sort query is defined whenever it starts defined. -/
theorem foldMax_isSome (l : List String) (acc : Option String)
    (hacc : acc.isSome = true) :
    (l.foldl (fun acc s =>
      match acc with
      | none => some s
      | some m => if charListLt m.data s.data then some s else some m) acc).isSome = true := by
  induction l generalizing acc with
  | nil => exact hacc
  | cons t l ih =>
    rw [List.foldl_cons]
    cases acc with
    | none => exact absurd hacc (by simp)
    | some mx =>
      refine ih _ ?_
      by_cases hlt : charListLt mx.data t.data = true <;> simp [hlt]

/-- Computation rule for the generator once the sort result, the parsed
segment and its numeric value are known. -/
theorem genOrderNumber_parse (existing : List String) (y m : Nat) (lastOrder : String)
    (hls : lastScopedOrder existing y m = some lastOrder)
    (c : Char) (cs : List Char) (hAf : afterLastDash lastOrder.data = c :: cs)
    (n : Nat) (hp : jsParseIntNat (c :: cs) = some n) :
    genOrderNumber existing y m = scopeStr y m ++ padStart 3 (Nat.repr (n + 1)) := by
  unfold genOrderNumber
  rw [hls]
  show (match afterLastDash lastOrder.data with
    | [] => scopeStr y m ++ padStart 3 (Nat.repr (0 + 1))
    | ds =>
      match jsParseIntNat ds with
      | some lastNumber => scopeStr y m ++ padStart 3 (Nat.repr (lastNumber + 1))
      | none => scopeStr y m ++ "NaN") = scopeStr y m ++ padStart 3 (Nat.repr (n + 1))
  rw [hAf]
  show (match jsParseIntNat (c :: cs) with
    | some lastNumber => scopeStr y m ++ padStart 3 (Nat.repr (lastNumber + 1))
    | none => scopeStr y m ++ "NaN") = scopeStr y m ++ padStart 3 (Nat.repr (n + 1))
  rw [hp]

/-- The general below-1000 behaviour: over a store whose scoped numbers are
canonical with sequences in `[1, 999]` and numeric maximum `M ≤ 998`, the
generator allocates exactly the canonical number of sequence `M + 1`. -/
theorem genOrderNumber_canonical (existing : List String) (y m M : Nat)
    (hcanon : ∀ s ∈ existing, (scopeStr y m).data.isPrefixOf s.data = true →
      ∃ k, 1 ≤ k ∧ k ≤ 999 ∧ s = canonOrderNumber y m k)
    (hMmem : canonOrderNumber y m M ∈ existing)
    (hMmax : ∀ k, k ≤ 999 → canonOrderNumber y m k ∈ existing → k ≤ M)
    (hM : M ≤ 998) :
    genOrderNumber existing y m = canonOrderNumber y m (M + 1) := by
  have hM1000 : M < 1000 := by omega
  have hpref := scope_isPrefixOf_canon y m M
  have hMin : canonOrderNumber y m M ∈
      existing.filter (fun s => (scopeStr y m).data.isPrefixOf s.data) :=
    List.mem_filter.mpr ⟨hMmem, hpref⟩
  have hfold : lastScopedOrder existing y m =
      (existing.filter (fun s => (scopeStr y m).data.isPrefixOf s.data)).foldl
        (fun acc s =>
          match acc with
          | none => some s
          | some m => if charListLt m.data s.data then some s else some m) none := rfl
  have hsome : (lastScopedOrder existing y m).isSome = true := by
    rw [hfold]
    cases hsc : existing.filter (fun s => (scopeStr y m).data.isPrefixOf s.data) with
    | nil => exact absurd (hsc ▸ hMin) (by simp)
    | cons t rest =>
      rw [List.foldl_cons]
      exact foldMax_isSome rest _ (by simp)
  obtain ⟨res, hres⟩ := Option.isSome_iff_exists.mp hsome
  obtain ⟨hmem, hdom, _⟩ := foldMax_spec _ none res (hfold ▸ hres)
  have hmem' : res ∈ existing.filter (fun s => (scopeStr y m).data.isPrefixOf s.data) := by
    rcases hmem with hm | hm
    · exact hm
    · exact Option.noConfusion hm
  obtain ⟨hresmem, hrespref⟩ := List.mem_filter.mp hmem'
  obtain ⟨kr, hk1, hk999, hkeq⟩ := hcanon res hresmem hrespref
  have hkM : kr ≤ M := hMmax kr hk999 (hkeq ▸ hresmem)
  have hnd := hdom _ hMin
  have hnotlt : ¬ (kr < M) := by
    intro hlt
    have hcl := (canon_lt_iff y m kr M (by omega) hM1000).mpr hlt
    rw [hkeq] at hnd
    rw [hcl] at hnd
    exact Bool.noConfusion hnd
  have hkrM : kr = M := le_antisymm hkM (not_lt.mp hnotlt)
  have hlso : lastScopedOrder existing y m = some (canonOrderNumber y m M) := by
    rw [hres, hkeq, hkrM]
  have hAf : afterLastDash (canonOrderNumber y m M).data = (padStart 3 (Nat.repr M)).data :=
    afterLastDash_canon y m M hM1000
  obtain ⟨hdig, hlen, _⟩ := padded_repr_facts M hM1000
  cases hdata : (padStart 3 (Nat.repr M)).data with
  | nil =>
    rw [hdata] at hlen
    simp at hlen
  | cons c cs =>
    have hAf' : afterLastDash (canonOrderNumber y m M).data = c :: cs := by rw [hAf, hdata]
    have hp' : jsParseIntNat (c :: cs) = some M := by
      rw [← hdata]
      exact jsParseIntNat_padded M hM1000
    exact genOrderNumber_parse existing y m _ hlso c cs hAf' M hp'

/-- Canonical numbers below 1000 in a digit-formed year-month scope match the
spec's exact `ORDER-{year:4}-{month:2}-{sequence:3}` wire format. -/
theorem specFormat_canon (y m k : Nat) (hk : k < 1000)
    (hY1 : (Nat.repr y).data.all Char.isDigit = true) (hY2 : (Nat.repr y).length = 4)
    (hm1 : (padStart 2 (Nat.repr m)).data.all Char.isDigit = true)
    (hm2 : (padStart 2 (Nat.repr m)).length = 2) :
    specOrderNumberFormatB (canonOrderNumber y m k) = true := by
  obtain ⟨hk1, hk2, _⟩ := padded_repr_facts k hk
  unfold specOrderNumberFormatB
  rw [canonOrderNumber_data4]
  rw [splitOnDash_append "ORDER".data _ (by decide)]
  rw [splitOnDash_append (Nat.repr y).data _ (all_digit_no_dash _ hY1)]
  rw [splitOnDash_append (padStart 2 (Nat.repr m)).data _ (all_digit_no_dash _ hm1)]
  rw [splitOnDash_dashfree _ (all_digit_no_dash _ hk1)]
  have hY2' : (Nat.repr y).data.length = 4 := hY2
  have hm2' : (padStart 2 (Nat.repr m)).data.length = 2 := hm2
  simp [hY1, hm1, hk1, hk2, hY2', hm2']

/-! ## Claim C5 — order-number format, restart and in-scope uniqueness -/

/-- C5, counterexample: with a scoped store at sequence 999 (reachable, since
deletions leave gaps and 999 successful allocations reach it directly), the
next allocation yields `ORDER-2025-01-1000`, whose sequence field has four
digits — not the claimed `{sequence:3}` format.  Worse, with both `...-999` and
`...-1000` stored, the generator's lexicographic maximum is still `...-999`, so
the next allocation produces `ORDER-2025-01-1000` **again**, a duplicate of an
existing number in the same scope. -/
theorem C5_counterexample :
    genOrderNumber ["ORDER-2025-01-999"] 2025 1 = "ORDER-2025-01-1000" ∧
    specOrderNumberFormatB "ORDER-2025-01-1000" = false ∧
    genOrderNumber ["ORDER-2025-01-999", "ORDER-2025-01-1000"] 2025 1 = "ORDER-2025-01-1000" ∧
    "ORDER-2025-01-1000" ∈ ["ORDER-2025-01-999", "ORDER-2025-01-1000"] := by
  refine ⟨by decide, by decide, by decide, by decide⟩

/-- C5, amended: over any store whose numbers carry digit tails, an allocated
number is the scope string `ORDER-{year}-{month:2}-` followed by a sequence
`≥ 1` zero-padded to **at least** three digits (exactly three — the spec's
format — only while the sequence stays below 1000); an empty year-month scope
restarts the sequence at `001`; and **in general**, whenever the scoped portion
of the store consists of canonical three-digit numbers with sequences in
`[1, 999]` and numeric maximum `M ≤ 998`, the allocation is exactly the
canonical number of sequence `M + 1`: it matches the spec's wire format
(for digit-formed year-month fields), and it is lexicographically strictly
above and distinct from **every** scoped number already stored — the sequence
increases with distinct values while the scope stays below 1000 (e.g. five
serial creations over an empty store yield `001` … `005`, pairwise distinct).
Beyond 999 the sequence field widens and uniqueness can fail (see the
counterexample). -/
theorem C5_format_and_restart (existing : List String) (y m : Nat)
    (hdig : ∀ s ∈ existing, ((afterLastDash s.data).all Char.isDigit) = true) :
    (∃ k, 1 ≤ k ∧ genOrderNumber existing y m = scopeStr y m ++ padStart 3 (Nat.repr k)) ∧
    (lastScopedOrder existing y m = none →
      genOrderNumber existing y m = scopeStr y m ++ "001") ∧
    (∀ M, M ≤ 998 →
      (∀ s ∈ existing, (scopeStr y m).data.isPrefixOf s.data = true →
        ∃ k, 1 ≤ k ∧ k ≤ 999 ∧ s = canonOrderNumber y m k) →
      canonOrderNumber y m M ∈ existing →
      (∀ k, k ≤ 999 → canonOrderNumber y m k ∈ existing → k ≤ M) →
      genOrderNumber existing y m = canonOrderNumber y m (M + 1) ∧
      ((Nat.repr y).data.all Char.isDigit = true → (Nat.repr y).length = 4 →
        (padStart 2 (Nat.repr m)).data.all Char.isDigit = true →
        (padStart 2 (Nat.repr m)).length = 2 →
        specOrderNumberFormatB (genOrderNumber existing y m) = true) ∧
      (∀ s ∈ existing, (scopeStr y m).data.isPrefixOf s.data = true →
        charListLt s.data (genOrderNumber existing y m).data = true ∧
        s ≠ genOrderNumber existing y m)) ∧
    ((allocRun jan2025 (initSystem [] 5) [0, 0, 1, 1, 2, 2, 3, 3, 4, 4]).saved =
      ["ORDER-2025-01-001", "ORDER-2025-01-002", "ORDER-2025-01-003",
       "ORDER-2025-01-004", "ORDER-2025-01-005"] ∧
     (["ORDER-2025-01-001", "ORDER-2025-01-002", "ORDER-2025-01-003",
       "ORDER-2025-01-004", "ORDER-2025-01-005"] : List String).Nodup) := by
  refine ⟨?_, ?_, ?_, by decide, by decide⟩
  · unfold genOrderNumber
    cases hls : lastScopedOrder existing y m with
    | none => exact ⟨1, Nat.le_refl 1, rfl⟩
    | some lastOrder =>
      have hmem := lastScopedOrder_mem existing y m lastOrder hls
      have hd := hdig lastOrder hmem
      cases hAf : afterLastDash lastOrder.data with
      | nil =>
        refine ⟨1, Nat.le_refl 1, ?_⟩
        show (match afterLastDash lastOrder.data with
          | [] => scopeStr y m ++ padStart 3 (Nat.repr (0 + 1))
          | ds =>
            match jsParseIntNat ds with
            | some lastNumber => scopeStr y m ++ padStart 3 (Nat.repr (lastNumber + 1))
            | none => scopeStr y m ++ "NaN") = scopeStr y m ++ padStart 3 (Nat.repr 1)
        rw [hAf]
      | cons c cs =>
        rw [hAf] at hd
        have htw : (c :: cs).takeWhile Char.isDigit = c :: cs :=
          List.takeWhile_eq_self_iff.mpr (by simpa using List.all_eq_true.mp hd)
        have hp : jsParseIntNat (c :: cs) = some (digitsToNat (c :: cs)) := by
          simp [jsParseIntNat, htw]
        refine ⟨digitsToNat (c :: cs) + 1, Nat.le_add_left 1 _, ?_⟩
        show (match afterLastDash lastOrder.data with
          | [] => scopeStr y m ++ padStart 3 (Nat.repr (0 + 1))
          | ds =>
            match jsParseIntNat ds with
            | some lastNumber => scopeStr y m ++ padStart 3 (Nat.repr (lastNumber + 1))
            | none => scopeStr y m ++ "NaN") =
          scopeStr y m ++ padStart 3 (Nat.repr (digitsToNat (c :: cs) + 1))
        rw [hAf]
        show (match jsParseIntNat (c :: cs) with
          | some lastNumber => scopeStr y m ++ padStart 3 (Nat.repr (lastNumber + 1))
          | none => scopeStr y m ++ "NaN") =
          scopeStr y m ++ padStart 3 (Nat.repr (digitsToNat (c :: cs) + 1))
        rw [hp]
  · intro hls
    unfold genOrderNumber
    rw [hls]
    show scopeStr y m ++ padStart 3 (Nat.repr 1) = scopeStr y m ++ "001"
    rw [show padStart 3 (Nat.repr 1) = "001" from by decide]
  · intro M hM hcanon hMmem hMmax
    have hgen := genOrderNumber_canonical existing y m M hcanon hMmem hMmax hM
    refine ⟨hgen, ?_, ?_⟩
    · intro hY1 hY2 hm1 hm2
      rw [hgen]
      exact specFormat_canon y m (M + 1) (by omega) hY1 hY2 hm1 hm2
    · intro s hs hpref
      obtain ⟨k, hk1, hk999, hkeq⟩ := hcanon s hs hpref
      have hkM : k ≤ M := hMmax k hk999 (hkeq ▸ hs)
      constructor
      · rw [hgen, hkeq]
        exact (canon_lt_iff y m k (M + 1) (by omega) (by omega)).mpr (by omega)
      · rw [hgen, hkeq]
        intro hcon
        have hkk := canon_inj y m k (M + 1) (by omega) (by omega) hcon
        omega

set_option maxRecDepth 10000 in
set_option maxHeartbeats 4000000 in
/-- C5, witness for the amended theorem: a store holding only
`ORDER-2025-01-007` (gaps are legitimate — orders can be deleted) allocates a
well-formed three-digit successor; the empty scope restarts at `001`; and over
the canonical store `{002, 001, 007}` with numeric maximum 7 the general part
yields exactly `ORDER-2025-01-008` — in the spec's wire format,
lexicographically strictly above and distinct from the stored maximum. -/
theorem C5_format_and_restart_witness :
    (∃ k, 1 ≤ k ∧ genOrderNumber ["ORDER-2025-01-007"] 2025 1 =
      scopeStr 2025 1 ++ padStart 3 (Nat.repr k)) ∧
    genOrderNumber [] 2025 1 = scopeStr 2025 1 ++ "001" ∧
    genOrderNumber ["ORDER-2025-01-002", "ORDER-2025-01-001", "ORDER-2025-01-007"] 2025 1 =
      canonOrderNumber 2025 1 8 ∧
    specOrderNumberFormatB
      (genOrderNumber ["ORDER-2025-01-002", "ORDER-2025-01-001", "ORDER-2025-01-007"]
        2025 1) = true ∧
    charListLt "ORDER-2025-01-007".data
      (genOrderNumber ["ORDER-2025-01-002", "ORDER-2025-01-001", "ORDER-2025-01-007"]
        2025 1).data = true ∧
    "ORDER-2025-01-007" ≠
      genOrderNumber ["ORDER-2025-01-002", "ORDER-2025-01-001", "ORDER-2025-01-007"] 2025 1 := by
  have hgen := (C5_format_and_restart
      ["ORDER-2025-01-002", "ORDER-2025-01-001", "ORDER-2025-01-007"] 2025 1
      (by decide)).2.2.1 7 (by decide)
      (by
        intro s hs hp
        simp only [List.mem_cons, List.not_mem_nil, or_false] at hs
        rcases hs with h | h | h
        · exact ⟨2, by decide, by decide, by rw [h]; decide⟩
        · exact ⟨1, by decide, by decide, by rw [h]; decide⟩
        · exact ⟨7, by decide, by decide, by rw [h]; decide⟩)
      (by decide) (by decide)
  obtain ⟨h1, h2, h3⟩ := hgen
  have hlast := h3 "ORDER-2025-01-007" (by decide) (by decide)
  exact ⟨(C5_format_and_restart ["ORDER-2025-01-007"] 2025 1 (by decide)).1,
    (C5_format_and_restart [] 2025 1 (by decide)).2.1 (by decide),
    h1, h2 (by decide) (by decide) (by decide) (by decide), hlast.1, hlast.2⟩

/-! ## Claim C2 — allocation under concurrency -/

/-- C2, counterexample: the read-then-write race.  Two concurrent creations in
January 2025 over an empty store, interleaved read/read/write/write, both
compute the **same** candidate `ORDER-2025-01-001`; the first insert succeeds,
the second hits the unique index and fails.  The two allocations are not
pairwise distinct, and the spec's scenario (5) outcome — `ORDER-2025-01-001`
and `ORDER-2025-01-002` both present — does not happen. -/
theorem C2_counterexample :
    (allocRun jan2025 (initSystem [] 2) [0, 1]).reqs =
      [.gotCandidate "ORDER-2025-01-001", .gotCandidate "ORDER-2025-01-001"] ∧
    (allocRun jan2025 (initSystem [] 2) [0, 1, 0, 1]).reqs =
      [.ok "ORDER-2025-01-001", .failed "ORDER-2025-01-001"] ∧
    (allocRun jan2025 (initSystem [] 2) [0, 1, 0, 1]).saved = ["ORDER-2025-01-001"] ∧
    ¬ ("ORDER-2025-01-002" ∈ (allocRun jan2025 (initSystem [] 2) [0, 1, 0, 1]).saved) := by
  refine ⟨by decide, by decide, by decide, by decide⟩

/-- C2, amended: under every interleaving of `n` concurrent creations over a
duplicate-free store, the unique index keeps the store duplicate-free, the
successful requests hold pairwise-distinct persisted numbers, and a request
whose candidate collides fails explicitly with a duplicate-key rejection
(transitions to `failed`) rather than persisting a duplicate.  The allocator
itself can hand two requests the same candidate (see the counterexample), so
`n` requests need not all succeed with distinct numbers — the no-duplicate
guarantee comes from the store's unique index, not from allocation. -/
theorem C2_no_duplicates_persisted (now : OrderDate) (saved : List String) (n : Nat)
    (sched : List Nat) (h : saved.Nodup) :
    ((allocRun now (initSystem saved n) sched).saved).Nodup ∧
    (okNumbers (allocRun now (initSystem saved n) sched).reqs).Nodup ∧
    ∀ x ∈ okNumbers (allocRun now (initSystem saved n) sched).reqs,
      x ∈ (allocRun now (initSystem saved n) sched).saved :=
  allocRun_inv now sched (initSystem saved n) (initSystem_inv saved n h)

/-- C2, witness for the amended theorem: the racing schedule of the
counterexample still leaves a duplicate-free store with every successful
number persisted. -/
theorem C2_no_duplicates_persisted_witness :
    ((allocRun jan2025 (initSystem [] 2) [0, 1, 0, 1]).saved).Nodup ∧
    (okNumbers (allocRun jan2025 (initSystem [] 2) [0, 1, 0, 1]).reqs).Nodup ∧
    ∀ x ∈ okNumbers (allocRun jan2025 (initSystem [] 2) [0, 1, 0, 1]).reqs,
      x ∈ (allocRun jan2025 (initSystem [] 2) [0, 1, 0, 1]).saved :=
  C2_no_duplicates_persisted jan2025 [] 2 [0, 1, 0, 1] (by decide)

/-! ## Claim C4 — the persisted-total invariant -/

/-- C4, counterexample: `c4doc` (total `0.014`, all other monetary fields `0`)
is accepted by `save` — the hook compares the **rounded** total `0.01` against
the rounded recomputed total `0.00`, difference exactly `0.01`, within
tolerance — yet the persisted total `0.014` differs from
`round2(subtotal + tax + shippingCost − discount) = 0` by more than `0.01`,
violating the claimed equation. -/
theorem C4_counterexample :
    (saveOrder mockEnv [] jan2025 c4doc).toOption.map (fun p => p.1.total) = some (7 / 500) ∧
    |c4doc.total - round2 (c4doc.subtotal + c4doc.tax + c4doc.shippingCost - c4doc.discount)| >
      1 / 100 := by
  refine ⟨by decide, by decide⟩

/-! ## Claim C1 — rejection of mismatched client totals -/

/-- C1, counterexample: the spec's scenario (3).  The caller submits
`total: 99.00` for the scenario-(1) order whose recomputed total is `31.00`
(`|99 − 31| > 0.01`); the claim says the pipeline rejects with a
monetary-mismatch error, but the pipeline **accepts** the request and silently
persists the recomputed total `31.00` in place of the submitted `99.00`. -/
theorem C1_counterexample :
    ({ baseReq with total := some 99 } : OrderInput).total = some 99 ∧
    |(99 : ℚ) - 31| > 1 / 100 ∧
    createOrderAndSave mockEnv [] jan2025 { baseReq with total := some 99 } =
      .ok (baseSavedDoc, ["ORDER-2025-01-001"]) ∧
    baseSavedDoc.total = 31 := by
  refine ⟨by decide, by decide, by decide, by decide⟩

/-! ## Claim C10 — payment-status defaulting -/

/-- C10, counterexample: an **explicitly supplied** `paymentStatus` of `""` is
not used unchanged.  With `paymentStatus: ""` and a non-empty
`paymentReference`, the falsy status takes the defaulting path and the created
order's `paymentStatus` is `"paid"`, not the supplied `""`. -/
theorem C10_counterexample :
    ({ baseReq with paymentStatus := some "", paymentReference := some "PAY-123" } :
      OrderInput).paymentStatus = some "" ∧
    (createOrderAndSave mockEnv [] jan2025
        { baseReq with paymentStatus := some "", paymentReference := some "PAY-123" }).toOption.map
      (fun p => p.1.paymentStatus) = some "paid" ∧
    ¬ (("paid" : String) = "") := by
  refine ⟨by decide, by decide, by decide⟩

/-- C1, amended: the pipeline ignores the client-submitted `total` entirely —
the result of order creation is identical for every submitted total (silent
substitution, never a mismatch rejection), and every created order's `total` is
the recomputed `round2(subtotal + tax + shippingCost − discount)`.  The
save-time mismatch check compares the already-substituted value against itself
and cannot fire on a client mismatch. -/
theorem C1_total_silently_substituted (env : Env) (existing : List String) (now : OrderDate)
    (req : OrderInput) (t1 t2 : Option ℚ) :
    createOrderAndSave env existing now { req with total := t1 } =
      createOrderAndSave env existing now { req with total := t2 } ∧
    ∀ out, createOrderAndSave env existing now req = .ok out →
      out.1.total = round2 (out.1.subtotal + out.1.tax + out.1.shippingCost - out.1.discount) := by
  constructor
  · unfold createOrderAndSave
    rw [createOrder_total_irrelevant env req t1, createOrder_total_irrelevant env req t2]
  · intro out h
    unfold createOrderAndSave at h
    cases hc : createOrder env req with
    | error e => rw [hc] at h; exact Except.noConfusion h
    | ok doc =>
      rw [hc] at h
      obtain ⟨b, a0, z, _, _, _, hdoc⟩ := createOrder_ok_elim _ _ _ hc
      obtain ⟨_, hout1, _⟩ := saveOrder_ok_elim _ _ _ _ _ h
      obtain ⟨_, hsub, htax, _, hdisc, htot, hship, _, _⟩ := hookNumber_fields existing now doc
      rw [hout1, hsub, htax, hdisc, htot, hship, hdoc]
      rfl

/-- C1, witness for the amended theorem: the scenario-(1) request with
submitted totals 99 and 31 produces the same outcome, and the persisted total
equals the recomputed rounded total. -/
theorem C1_total_silently_substituted_witness :
    (createOrderAndSave mockEnv [] jan2025 { baseReq with total := some 99 } =
      createOrderAndSave mockEnv [] jan2025 { baseReq with total := some 31 }) ∧
    baseSavedDoc.total =
      round2 (baseSavedDoc.subtotal + baseSavedDoc.tax + baseSavedDoc.shippingCost -
        baseSavedDoc.discount) :=
  ⟨(C1_total_silently_substituted mockEnv [] jan2025 baseReq (some 99) (some 31)).1,
   (C1_total_silently_substituted mockEnv [] jan2025 baseReq (some 99) (some 31)).2
     (baseSavedDoc, ["ORDER-2025-01-001"]) (by decide)⟩

/-! ## Claim C3 — subtotal recomputation -/

/-- C3: for every request and every caller-submitted `subtotal`, a successful
pipeline run persists `subtotal = round2(Σ totalPrice)` over the **normalized**
line items of that request — the caller-submitted subtotal never becomes the
stored subtotal (it only serves as the normalization reference). -/
theorem C3_subtotal_recomputed (env : Env) (existing : List String) (now : OrderDate)
    (req : OrderInput) (sb : Option ℚ) (out : OrderDoc × List String)
    (h : createOrderAndSave env existing now { req with subtotal := sb } = .ok out) :
    out.1.subtotal =
      round2 ((((convertOrderMonetaryValues { req with subtotal := sb }).items.getD []).map
        OrderItem.totalPrice).sum) := by
  unfold createOrderAndSave at h
  cases hc : createOrder env { req with subtotal := sb } with
  | error e => rw [hc] at h; exact Except.noConfusion h
  | ok doc =>
    rw [hc] at h
    obtain ⟨b, a0, z, _, _, _, hdoc⟩ := createOrder_ok_elim _ _ _ hc
    obtain ⟨_, hout1, _⟩ := saveOrder_ok_elim _ _ _ _ _ h
    obtain ⟨_, hsub, _⟩ := hookNumber_fields existing now doc
    rw [hout1, hsub, hdoc]
    rfl

/-- C3, witness: the spec's end-to-end scenario (2) — the caller submits
`subtotal: 2500` (cents); the pipeline succeeds and stores subtotal `25.00`,
the rounded sum of the normalized item totals. -/
theorem C3_subtotal_recomputed_witness :
    baseSavedDoc.subtotal =
      round2 ((((convertOrderMonetaryValues { baseReq with subtotal := some 2500 }).items.getD
        []).map OrderItem.totalPrice).sum) :=
  C3_subtotal_recomputed mockEnv [] jan2025 baseReq (some 2500)
    (baseSavedDoc, ["ORDER-2025-01-001"]) (by decide)

/-! ## Claim C4 — amended total invariant -/

/-- C4, amended: for every order accepted by `save`, the **rounded** total is
within `0.01` of the rounded recomputed total (hence the stored total itself is
within `0.015` of it), and an order whose rounded total differs from the
rounded recomputed total by more than `0.01` is never saved.  (The exact,
unrounded claim fails: see the counterexample.) -/
theorem C4_total_invariant_rounded (env : Env) (existing : List String) (now : OrderDate)
    (doc : OrderDoc) :
    (∀ out, saveOrder env existing now doc = .ok out →
      |round2 out.1.total -
        round2 (out.1.subtotal + out.1.tax + out.1.shippingCost - out.1.discount)| ≤ 1 / 100 ∧
      |out.1.total -
        round2 (out.1.subtotal + out.1.tax + out.1.shippingCost - out.1.discount)| ≤ 3 / 200) ∧
    (|round2 doc.total - round2 (doc.subtotal + doc.tax + doc.shippingCost - doc.discount)| >
        1 / 100 →
      ∀ out, ¬ (saveOrder env existing now doc = .ok out)) := by
  constructor
  · intro out h
    obtain ⟨_, _, htot, _⟩ := saveOrder_ok_elim _ _ _ _ _ h
    refine ⟨htot, ?_⟩
    have hclose := round2_sub_self_abs_le out.1.total
    set R := round2 (out.1.subtotal + out.1.tax + out.1.shippingCost - out.1.discount)
    calc |out.1.total - R|
        = |(out.1.total - round2 out.1.total) + (round2 out.1.total - R)| := by ring_nf
      _ ≤ |out.1.total - round2 out.1.total| + |round2 out.1.total - R| := abs_add _ _
      _ ≤ 1 / 200 + 1 / 100 := by
          have : |out.1.total - round2 out.1.total| ≤ 1 / 200 := by
            rw [abs_sub_comm]; exact hclose
          linarith
      _ = 3 / 200 := by norm_num
  · intro hmis out h
    obtain ⟨_, hout1, htot, _⟩ := saveOrder_ok_elim _ _ _ _ _ h
    obtain ⟨_, hsub, htax, _, hdisc, htotf, hship, _, _⟩ := hookNumber_fields existing now doc
    rw [hout1, hsub, htax, hdisc, htotf, hship] at htot
    exact absurd htot (not_le.mpr hmis)

/-- C4, witness for the amended theorem: the `baseSavedDoc` run satisfies the
rounded bounds, and a document with total `99` against recomputed total `31`
is rejected by `save`. -/
theorem C4_total_invariant_rounded_witness :
    (|round2 baseSavedDoc.total -
      round2 (baseSavedDoc.subtotal + baseSavedDoc.tax + baseSavedDoc.shippingCost -
        baseSavedDoc.discount)| ≤ 1 / 100) ∧
    ¬ (saveOrder mockEnv [] jan2025 { baseSavedDoc with orderNumber := "", total := 99 } =
      .ok ({ baseSavedDoc with total := 99 }, ["ORDER-2025-01-001"])) :=
  ⟨((C4_total_invariant_rounded mockEnv [] jan2025
      { baseSavedDoc with orderNumber := "" }).1
      (baseSavedDoc, ["ORDER-2025-01-001"]) (by decide)).1,
   (C4_total_invariant_rounded mockEnv [] jan2025
      { baseSavedDoc with orderNumber := "", total := 99 }).2 (by decide)
     ({ baseSavedDoc with total := 99 }, ["ORDER-2025-01-001"])⟩

/-! ## Claim C8 — shipping cost from the zone table -/

/-- C8: for every created order with a valid delivery zone, the persisted
`shippingCost` is the zone table's value for that zone, and the entire pipeline
outcome is independent of any client-submitted shipping cost.  (The zone price
table itself lives in the absent `ecuador-validation.ts` and is modelled from
the spec as the `Env.zonePrice` parameter.) -/
theorem C8_shipping_from_zone_table (env : Env) (existing : List String) (now : OrderDate)
    (req : OrderInput) (c : Option ℚ) (zone : DeliveryZone)
    (hz : req.deliveryZone.bind zoneOfString = some zone) :
    createOrderAndSave env existing now { req with shippingCost := c } =
      createOrderAndSave env existing now req ∧
    ∀ out, createOrderAndSave env existing now req = .ok out →
      out.1.shippingCost = env.zonePrice zone := by
  constructor
  · unfold createOrderAndSave
    rw [createOrder_shippingCost_irrelevant]
  · intro out h
    unfold createOrderAndSave at h
    cases hc : createOrder env req with
    | error e => rw [hc] at h; exact Except.noConfusion h
    | ok doc =>
      rw [hc] at h
      obtain ⟨b, a0, z, _, _, hzz, hdoc⟩ := createOrder_ok_elim _ _ _ hc
      obtain ⟨_, hout1, _⟩ := saveOrder_ok_elim _ _ _ _ _ h
      obtain ⟨_, _, _, _, _, _, hship, _, _⟩ := hookNumber_fields existing now doc
      rw [hout1, hship, hdoc]
      rw [hz] at hzz
      injection hzz with hzz
      rw [← hzz]
      rfl

/-- C8, witness: the scenario-(1) request with a client-submitted shipping cost
of 999 produces the same outcome as without it, and the persisted shipping cost
is the zone table's `3.00` for `samanes_suburbio`. -/
theorem C8_shipping_from_zone_table_witness :
    (createOrderAndSave mockEnv [] jan2025 { baseReq with shippingCost := some 999 } =
      createOrderAndSave mockEnv [] jan2025 baseReq) ∧
    baseSavedDoc.shippingCost = mockEnv.zonePrice .samanes_suburbio :=
  ⟨(C8_shipping_from_zone_table mockEnv [] jan2025 baseReq (some 999) .samanes_suburbio
      (by decide)).1,
   (C8_shipping_from_zone_table mockEnv [] jan2025 baseReq (some 999) .samanes_suburbio
      (by decide)).2 (baseSavedDoc, ["ORDER-2025-01-001"]) (by decide)⟩

/-! ## Claim C9 — unknown delivery zone -/

/-- C9: a request whose delivery zone is missing or outside the closed zone set
is rejected with an input-validation (HTTP 400) error; no order document is
persisted and no order number is allocated (the pipeline returns before `save`
runs, and an `.error` result carries no store change).  (Zone membership is the
claim's `isValidDeliveryZone` from the absent `ecuador-validation.ts`, modelled
from the spec and the schema's enum.) -/
theorem C9_unknown_zone_rejected (env : Env) (existing : List String) (now : OrderDate)
    (req : OrderInput) (hz : req.deliveryZone.bind zoneOfString = none) :
    ∃ msg, createOrderAndSave env existing now req = .error (.badRequest msg) := by
  obtain ⟨msg, hmsg⟩ := createOrder_zone_invalid env req hz
  refine ⟨msg, ?_⟩
  unfold createOrderAndSave
  rw [hmsg]

/-- C9, witness: the spec's scenario (4), unknown zone `"Z9"`. -/
theorem C9_unknown_zone_rejected_witness :
    ∃ msg, createOrderAndSave mockEnv [] jan2025 { baseReq with deliveryZone := some "Z9" } =
      .error (.badRequest msg) :=
  C9_unknown_zone_rejected mockEnv [] jan2025 { baseReq with deliveryZone := some "Z9" }
    (by decide)

/-- C10, amended: when the request's `paymentStatus` is absent **or empty**
(falsy), the created order's `paymentStatus` is `'paid'` if `paymentReference`
is present and non-empty after trimming and `'pending'` otherwise; a supplied
**non-empty** `paymentStatus` is used unchanged.  (A supplied empty string is
treated as absent — the counterexample shows it is not used unchanged.) -/
theorem C10_payment_status_defaulting (env : Env) (existing : List String) (now : OrderDate)
    (req : OrderInput) (out : OrderDoc × List String)
    (h : createOrderAndSave env existing now req = .ok out) :
    ((req.paymentStatus = none ∨ req.paymentStatus = some "") →
      out.1.paymentStatus = (match req.paymentReference with
        | some rs => if jsTrim rs == "" then "pending" else "paid"
        | none => "pending")) ∧
    (∀ s, req.paymentStatus = some s → ¬ (s = "") → out.1.paymentStatus = s) := by
  have hps : out.1.paymentStatus = finalPaymentStatus req.paymentStatus req.paymentReference := by
    unfold createOrderAndSave at h
    cases hc : createOrder env req with
    | error e => rw [hc] at h; exact Except.noConfusion h
    | ok doc =>
      rw [hc] at h
      obtain ⟨b, a0, z, _, _, _, hdoc⟩ := createOrder_ok_elim _ _ _ hc
      obtain ⟨_, hout1, _⟩ := saveOrder_ok_elim _ _ _ _ _ h
      obtain ⟨_, _, _, _, _, _, _, hpay, _⟩ := hookNumber_fields existing now doc
      rw [hout1, hpay, hdoc]
      rfl
  constructor
  · intro hfalsy
    rw [hps]
    have htr : truthyStr req.paymentStatus = false := by
      rcases hfalsy with h1 | h1 <;> simp [truthyStr, h1]
    cases hr : req.paymentReference with
    | none =>
      simp only [finalPaymentStatus, htr]
      simp [truthyStr]
    | some rs =>
      simp only [finalPaymentStatus, htr]
      simp only [truthyStr, Option.getD_some, Bool.not_false, Bool.true_and]
      by_cases hjt : jsTrim rs = ""
      · simp [hjt]
      · have hrs : ¬ (rs = "") := fun hcon => hjt (by rw [hcon]; decide)
        simp [hjt, hrs]
  · intro s hs hne
    rw [hps, hs]
    simp [finalPaymentStatus, truthyStr, hne]

/-- The saved document when `baseReq` additionally carries payment reference
`PAY-123`: the payment status defaults to `'paid'`. -/
def c10PaidDoc : OrderDoc :=
  { baseSavedDoc with
    paymentReference := some "PAY-123"
    paymentStatus := "paid" }

/-- The saved document when `baseReq` additionally carries an explicit
`paymentStatus: "failed"`. -/
def c10FailedDoc : OrderDoc :=
  { baseSavedDoc with paymentStatus := "failed" }

/-- C10, witness for the amended theorem: with no `paymentStatus` and reference
`"PAY-123"` the created order is `'paid'`; with an explicit non-empty
`paymentStatus: "failed"` the order keeps `"failed"`. -/
theorem C10_payment_status_defaulting_witness :
    c10PaidDoc.paymentStatus = "paid" ∧ c10FailedDoc.paymentStatus = "failed" :=
  ⟨by
    have := (C10_payment_status_defaulting mockEnv [] jan2025
      { baseReq with paymentReference := some "PAY-123" }
      (c10PaidDoc, ["ORDER-2025-01-001"]) (by decide)).1 (Or.inl rfl)
    simpa using this,
   by
    have := (C10_payment_status_defaulting mockEnv [] jan2025
      { baseReq with paymentStatus := some "failed" }
      (c10FailedDoc, ["ORDER-2025-01-001"])
      (by decide)).2 "failed" rfl (by decide)
    simpa using this⟩

end NicoleOrders
